import Mathlib

/-!
Verification of the MY-CLI course-video tool: a shallow embedding of the
credential-extraction, credential-store, API-request-building, video-URL
resolution and session-orchestration logic, together with theorems that
settle the specification claims against the embedded code.

Strings are modelled as Lean `String`/`List Char`; JavaScript regular
expressions are embedded as explicit maximal-munch scanners that agree with
the source patterns on the strings they are applied to; `JSON.parse` /
`JSON.stringify` are embedded as an executable JSON parser and printer;
the persistent credential file is modelled as an explicit `Option String`
state (file content), since `Bun.write` of an empty string leaves an empty
file rather than removing it.
-/

namespace MyCli

/-! ## JavaScript-style character and string primitives -/

/-- The characters matched by JavaScript `\s` (and trimmed by `String.trim`):
ASCII whitespace plus the Unicode space separators JS includes. -/
def jsIsWs (c : Char) : Bool :=
  c = ' ' || c = '\t' || c = '\n' || c = '\r' || c = '\u000B' || c = '\u000C' ||
  c = '\u00A0' || c = '\u1680' ||
  ('\u2000' ≤ c && c ≤ '\u200A') ||
  c = '\u2028' || c = '\u2029' || c = '\u202F' || c = '\u205F' ||
  c = '\u3000' || c = '\uFEFF'

/-- JavaScript `String.prototype.toLowerCase`, restricted to the ASCII range
(the only characters the embedded regular expressions compare
case-insensitively). -/
def jsToLower (s : String) : String :=
  String.mk (s.toList.map Char.toLower)

/-- JavaScript `String.prototype.trim`. -/
def jsTrimL (cs : List Char) : List Char :=
  ((cs.dropWhile jsIsWs).reverse.dropWhile jsIsWs).reverse

/-- JavaScript `String.prototype.trim` on `String`. -/
def jsTrim (s : String) : String :=
  String.mk (jsTrimL s.toList)

/-- Does `s` start with `pat`? (JS `String.prototype.startsWith`.) -/
def startsWithL : List Char → List Char → Bool
  | [], _ => true
  | _ :: _, [] => false
  | p :: ps, c :: cs => p = c && startsWithL ps cs

/-- Does `s` contain `pat` as a contiguous substring?
(JS `String.prototype.includes`.) -/
def containsL (s pat : List Char) : Bool :=
  match s with
  | [] => startsWithL pat []
  | _ :: cs => startsWithL pat s || containsL cs pat

/-- JS `String.prototype.includes` on `String`. -/
def containsStr (s pat : String) : Bool :=
  containsL s.toList pat.toList

/-- Does `s` end with `pat`? (JS `String.prototype.endsWith`.) -/
def endsWithL (s pat : List Char) : Bool :=
  startsWithL pat (s.drop (s.length - pat.length))

/-- JS `String.prototype.endsWith` on `String`. -/
def endsWithStr (s pat : String) : Bool :=
  endsWithL s.toList pat.toList

/-- JS `String.prototype.startsWith` on `String`. -/
def startsWithStr (s pat : String) : Bool :=
  startsWithL pat.toList s.toList

/-! Basic lemmas relating suffix and substring containment. -/

theorem containsL_of_startsWithL {pat s : List Char}
    (h : startsWithL pat s = true) : containsL s pat = true := by
  cases s with
  | nil => simpa [containsL] using h
  | cons c cs => simp [containsL, h]

theorem containsL_cons {pat cs : List Char} (c : Char)
    (h : containsL cs pat = true) : containsL (c :: cs) pat = true := by
  simp [containsL, h]

theorem containsL_append_of_startsWithL {pat s₂ : List Char} (s₁ : List Char)
    (h : startsWithL pat s₂ = true) : containsL (s₁ ++ s₂) pat = true := by
  induction s₁ with
  | nil => simpa using containsL_of_startsWithL h
  | cons c cs ih => simpa using containsL_cons c ih

theorem containsL_of_endsWithL {s pat : List Char}
    (h : endsWithL s pat = true) : containsL s pat = true := by
  have hsplit : s = s.take (s.length - pat.length) ++ s.drop (s.length - pat.length) := by
    simp
  rw [hsplit]
  exact containsL_append_of_startsWithL _ h

/-! ## Video-format determination (src/src/index.ts, `main`)

The source classifies the resolved URL with
`videoUrl.includes(".m3u8") ? "m3u8" : "mp4"`. -/

/-- `const videoType = videoUrl.includes(".m3u8") ? "m3u8" : "mp4";`
("m3u8" is the segmented format, "mp4" the progressive one). -/
def videoType (videoUrl : String) : String :=
  if containsStr videoUrl ".m3u8" then "m3u8" else "mp4"

/-! ## Course filtering (src/src/index.ts, `filterCourses`) -/

/-- One schedule entry (`Course` of src/src/types/index.ts). -/
structure Course where
  id : String
  title : String
  realname : String
  course_begin : String
  course_over : String
  room_name : String
  sub_id : String
  sub_title : String
  sub_status : String
  course_student_type : String
  lecturer_name : String
  deriving Repr, DecidableEq

/-- `filterCourses` of src/src/index.ts: an empty search term returns the
list unchanged; otherwise the term is lower-cased and trimmed and a course
is kept when its title, lecturer name or room name contains it. -/
def filterCourses (courses : List Course) (searchTerm : String) : List Course :=
  if searchTerm = "" then courses
  else
    let term := jsTrim (jsToLower searchTerm)
    courses.filter fun course =>
      containsStr (jsToLower course.title) term ||
      containsStr (jsToLower course.lecturer_name) term ||
      containsStr (jsToLower course.room_name) term

/-- The matching predicate in the words of claim C9: the title, lecturer
name, or room name contains the search term as a case-insensitive
substring (no trimming of the term). -/
def matchesTermRaw (course : Course) (term : String) : Bool :=
  containsStr (jsToLower course.title) (jsToLower term) ||
  containsStr (jsToLower course.lecturer_name) (jsToLower term) ||
  containsStr (jsToLower course.room_name) (jsToLower term)

/-- The matching predicate of the amended claim C9: the term is lower-cased
and trimmed before the case-insensitive substring test. -/
def matchesTermTrimmed (course : Course) (term : String) : Bool :=
  containsStr (jsToLower course.title) (jsTrim (jsToLower term)) ||
  containsStr (jsToLower course.lecturer_name) (jsTrim (jsToLower term)) ||
  containsStr (jsToLower course.room_name) (jsTrim (jsToLower term))

/-- A concrete course used in counterexamples and witnesses. -/
def mkCourse (title lecturer room : String) : Course :=
  { id := "1", title := title, realname := "r", course_begin := "0",
    course_over := "0", room_name := room, sub_id := "2", sub_title := "s",
    sub_status := "0", course_student_type := "", lecturer_name := lecturer }

/-- The course list of the specification's filtering example. -/
def demoCourses : List Course :=
  [mkCourse "Algebra" "Smith" "R101",
   mkCourse "Biology" "Jones" "R202",
   mkCourse "Advanced Algebra" "Lee" "R303"]

/-- Claim C2, counterexample: the code classifies by `includes(".m3u8")`,
not by "ends with .m3u8".  The URL `"https://x/a.m3u8.mp4"` ends in
`".mp4"` (so the claim predicts the progressive format `"mp4"`), yet the
code returns the segmented format `"m3u8"` because the URL contains
`".m3u8"` as an inner substring. -/
theorem videoType_not_endsWith_counterexample :
    videoType "https://x/a.m3u8.mp4" = "m3u8" ∧
    endsWithStr "https://x/a.m3u8.mp4" ".m3u8" = false ∧
    endsWithStr "https://x/a.m3u8.mp4" ".mp4" = true := by
  refine ⟨by decide, by decide, by decide⟩

/-- Claim C2 (amended): the format is segmented (`"m3u8"`) exactly when the
URL CONTAINS `".m3u8"` as a substring; in particular every URL that ends
with `".m3u8"` is segmented, and a URL that does not contain `".m3u8"`
anywhere (e.g. a plain `".mp4"` URL) is progressive (`"mp4"`). -/
theorem videoType_contains_m3u8 (url : String) :
    (videoType url = "m3u8" ↔ containsStr url ".m3u8" = true) ∧
    (endsWithStr url ".m3u8" = true → videoType url = "m3u8") ∧
    (containsStr url ".m3u8" = false → videoType url = "mp4") := by
  refine ⟨?_, ?_, ?_⟩
  · by_cases h : containsStr url ".m3u8" = true <;> simp [videoType, h]
  · intro h
    have hc : containsStr url ".m3u8" = true := containsL_of_endsWithL h
    simp [videoType, hc]
  · intro h
    simp [videoType, h]

/-- Witness for C2's amended theorem at concrete URLs: a `.m3u8`-ending URL
is classified segmented and a plain `.mp4` URL progressive. -/
theorem videoType_contains_m3u8_witness :
    videoType "https://x/y.m3u8" = "m3u8" ∧ videoType "https://x/y.mp4" = "mp4" :=
  ⟨(videoType_contains_m3u8 "https://x/y.m3u8").2.1 (by decide),
   (videoType_contains_m3u8 "https://x/y.mp4").2.2 (by decide)⟩

/-- Claim C9, counterexample: the code trims the search term before
matching, the claim does not.  With the single course titled `"a"` and the
non-empty search term `"a "` (trailing space), the code keeps the course,
although no field contains `"a "` as a case-insensitive substring — so the
result is not "exactly the courses whose title, lecturer name, or room name
contains the term". -/
theorem filterCourses_counterexample :
    filterCourses [mkCourse "a" "x" "y"] "a " = [mkCourse "a" "x" "y"] ∧
    matchesTermRaw (mkCourse "a" "x" "y") "a " = false := by
  refine ⟨by decide, by decide⟩

/-- Claim C9 (amended): for every course list and non-empty search term,
`filterCourses` returns exactly the courses whose title, lecturer name, or
room name contains the LOWER-CASED, TRIMMED term as a case-insensitive
substring, in the same relative order as the input list. -/
theorem filterCourses_exact (courses : List Course) (term : String)
    (h : term ≠ "") :
    (filterCourses courses term).Sublist courses ∧
    filterCourses courses term =
      courses.filter (fun c => matchesTermTrimmed c term) := by
  have heq : filterCourses courses term =
      courses.filter (fun c => matchesTermTrimmed c term) := by
    simp only [filterCourses, matchesTermTrimmed, if_neg h]
  exact ⟨heq ▸ List.filter_sublist courses, heq⟩

/-- Witness for C9's amended theorem on the specification's example: the
three-course list filtered by `"ALGEBRA"` keeps exactly the two Algebra
courses, in input order. -/
theorem filterCourses_exact_witness :
    filterCourses demoCourses "ALGEBRA" =
      demoCourses.filter (fun c => matchesTermTrimmed c "ALGEBRA") ∧
    filterCourses demoCourses "ALGEBRA" =
      [mkCourse "Algebra" "Smith" "R101", mkCourse "Advanced Algebra" "Lee" "R303"] :=
  ⟨(filterCourses_exact demoCourses "ALGEBRA" (by decide)).2, by decide⟩

/-! ## JSON values and `JSON.parse` (runtime collaborator of the source)

`JSON.parse` / `JSON.stringify` are JavaScript-runtime functions the source
calls; they are embedded as an executable recursive-descent parser and
printer for the JSON grammar.  Numbers are kept in decimal-digit form
(sign, integer digits, fraction digits, exponent) since the source only
ever consumes parsed values through property access and truthiness. -/

inductive Json where
  | null : Json
  | bool : Bool → Json
  | num : Bool → List Nat → List Nat → Bool → List Nat → Json
  | str : String → Json
  | arr : List Json → Json
  | obj : List (String × Json) → Json
  deriving Repr

/-- JSON insignificant whitespace (RFC 8259): space, tab, LF, CR. -/
def jsonWs (c : Char) : Bool :=
  c = ' ' || c = '\t' || c = '\n' || c = '\r'

/-- Skip JSON whitespace. -/
def skipWs (cs : List Char) : List Char :=
  cs.dropWhile jsonWs

/-- Hexadecimal digit value. -/
def hexVal (c : Char) : Option Nat :=
  if '0' ≤ c ∧ c ≤ '9' then some (c.toNat - '0'.toNat)
  else if 'a' ≤ c ∧ c ≤ 'f' then some (c.toNat - 'a'.toNat + 10)
  else if 'A' ≤ c ∧ c ≤ 'F' then some (c.toNat - 'A'.toNat + 10)
  else none

/-- Body of a JSON string after the opening quote: returns the decoded
characters and the input remaining after the closing quote.  Unescaped
control characters are rejected, escape sequences are decoded; a `\u`
escape is decoded through `Char.ofNat` (Lean characters are Unicode
scalars, so an unpaired surrogate decodes to the default character). -/
def escCode (e : Char) : Option Char :=
  if e = '"' then some '"'
  else if e = '\\' then some '\\'
  else if e = '/' then some '/'
  else if e = 'b' then some '\u0008'
  else if e = 'f' then some '\u000C'
  else if e = 'n' then some '\n'
  else if e = 'r' then some '\r'
  else if e = 't' then some '\t'
  else none

def parseStrBody : List Char → Option (List Char × List Char)
  | [] => none
  | c :: rest =>
      if c = '"' then some ([], rest)
      else if c = '\\' then
        match rest with
        | 'u' :: a :: b :: d₁ :: d₂ :: rest₂ =>
            (match hexVal a, hexVal b, hexVal d₁, hexVal d₂ with
             | some va, some vb, some vc, some vd =>
                 (parseStrBody rest₂).map
                   (fun p => (Char.ofNat (((va * 16 + vb) * 16 + vc) * 16 + vd) :: p.1, p.2))
             | _, _, _, _ => none)
        | e :: rest₂ =>
            (match escCode e with
             | some decoded => (parseStrBody rest₂).map (fun p => (decoded :: p.1, p.2))
             | none => none)
        | [] => none
      else if c.toNat < 0x20 then none
      else (parseStrBody rest).map (fun p => (c :: p.1, p.2))

/-- Leading run of decimal digits, as digit values. -/
def parseDigits : List Char → (List Nat × List Char)
  | [] => ([], [])
  | c :: rest =>
      if '0' ≤ c ∧ c ≤ '9' then
        let p := parseDigits rest
        ((c.toNat - '0'.toNat) :: p.1, p.2)
      else ([], c :: rest)

/-- A JSON number literal (RFC 8259 grammar, including the leading-zero
restriction): optional minus, integer digits, optional fraction, optional
exponent. -/
def parseNumberExp (neg : Bool) (ip fp : List Nat) (cs₃ : List Char) :
    Option (Json × List Char) :=
  match cs₃ with
  | 'e' :: rest | 'E' :: rest =>
      let (en, rest₁) := match rest with
        | '-' :: r => (true, r)
        | '+' :: r => (false, r)
        | _ => (false, rest)
      let (ep, rest₂) := parseDigits rest₁
      if ep = [] then none
      else some (.num neg ip fp en ep, rest₂)
  | _ => some (.num neg ip fp false [], cs₃)

def parseNumber (cs : List Char) : Option (Json × List Char) :=
  let (neg, cs₁) := match cs with
    | '-' :: rest => (true, rest)
    | _ => (false, cs)
  let (ip, cs₂) := parseDigits cs₁
  if ip = [] then none
  else if ip.length > 1 ∧ ip.headD 0 = 0 then none
  else
    match cs₂ with
    | '.' :: rest =>
        let p := parseDigits rest
        if p.1 = [] then none else parseNumberExp neg ip p.1 p.2
    | _ => parseNumberExp neg ip [] cs₂

mutual

/-- One JSON value, fuel-indexed (the fuel only bounds nesting; callers pass
input length + 1, which always suffices since every nesting level consumes
at least one character). -/
def parseVal : Nat → List Char → Option (Json × List Char)
  | 0, _ => none
  | fuel + 1, cs =>
      match skipWs cs with
      | 'n' :: 'u' :: 'l' :: 'l' :: rest => some (.null, rest)
      | 't' :: 'r' :: 'u' :: 'e' :: rest => some (.bool true, rest)
      | 'f' :: 'a' :: 'l' :: 's' :: 'e' :: rest => some (.bool false, rest)
      | '"' :: rest => (parseStrBody rest).map (fun p => (.str (String.mk p.1), p.2))
      | '[' :: rest =>
          (match skipWs rest with
           | ']' :: rest₂ => some (.arr [], rest₂)
           | _ => (parseElems fuel rest).map (fun p => (.arr p.1, p.2)))
      | '{' :: rest =>
          (match skipWs rest with
           | '}' :: rest₂ => some (.obj [], rest₂)
           | _ => (parseMembers fuel rest).map (fun p => (.obj p.1, p.2)))
      | other => parseNumber other

/-- One-or-more comma-separated array elements followed by `]`. -/
def parseElems : Nat → List Char → Option (List Json × List Char)
  | 0, _ => none
  | fuel + 1, cs =>
      (parseVal fuel cs).bind (fun vp =>
        match skipWs vp.2 with
        | ',' :: rest₂ => (parseElems fuel rest₂).map (fun q => (vp.1 :: q.1, q.2))
        | ']' :: rest₂ => some ([vp.1], rest₂)
        | _ => none)

/-- One-or-more comma-separated `"key": value` members followed by `}`. -/
def parseMembers : Nat → List Char → Option (List (String × Json) × List Char)
  | 0, _ => none
  | fuel + 1, cs =>
      match skipWs cs with
      | '"' :: rest =>
          (parseStrBody rest).bind (fun kp =>
            match skipWs kp.2 with
            | ':' :: rest₂ =>
                (parseVal fuel rest₂).bind (fun vp =>
                  match skipWs vp.2 with
                  | ',' :: rest₄ =>
                      (parseMembers fuel rest₄).map
                        (fun q => ((String.mk kp.1, vp.1) :: q.1, q.2))
                  | '}' :: rest₄ => some ([(String.mk kp.1, vp.1)], rest₄)
                  | _ => none)
            | _ => none)
      | _ => none

end

/-! Non-recursive continuation shells for the parser, used to state its
unfolding equations compactly (each is definitionally equal to the
corresponding sub-expression of the recursive definitions above). -/

/-- Continuation of `parseElems` after one element. -/
def parseElemsSep (fuel : Nat) (vp : Json × List Char) :
    Option (List Json × List Char) :=
  match skipWs vp.2 with
  | ',' :: rest₂ => (parseElems fuel rest₂).map (fun q => (vp.1 :: q.1, q.2))
  | ']' :: rest₂ => some ([vp.1], rest₂)
  | _ => none

/-- Continuation of `parseMembers` after a member's value. -/
def parseMembersSep (fuel : Nat) (key : List Char) (vp : Json × List Char) :
    Option (List (String × Json) × List Char) :=
  match skipWs vp.2 with
  | ',' :: rest₄ =>
      (parseMembers fuel rest₄).map (fun q => ((String.mk key, vp.1) :: q.1, q.2))
  | '}' :: rest₄ => some ([(String.mk key, vp.1)], rest₄)
  | _ => none

/-- Continuation of `parseMembers` after a member's key. -/
def parseMemberVal (fuel : Nat) (kp : List Char × List Char) :
    Option (List (String × Json) × List Char) :=
  match skipWs kp.2 with
  | ':' :: rest₂ => (parseVal fuel rest₂).bind (parseMembersSep fuel kp.1)
  | _ => none

/-- Unfolding equation of `parseMembers` in terms of the shells. -/
theorem parseMembers_succ (fuel : Nat) (cs : List Char) :
    parseMembers (fuel + 1) cs =
      (match skipWs cs with
       | '"' :: rest => (parseStrBody rest).bind (parseMemberVal fuel)
       | _ => none) := rfl

/-- Unfolding equation of `parseElems` in terms of the shells. -/
theorem parseElems_succ (fuel : Nat) (cs : List Char) :
    parseElems (fuel + 1) cs =
      (parseVal fuel cs).bind (parseElemsSep fuel) := rfl

/-! ## `JSON.stringify` for the credential object (src/unnamed/part_000,
`saveAuthInfo` uses `JSON.stringify(authInfo, null, 2)`) -/

/-- Lower-case hexadecimal digit character. -/
def hexDigitCh (n : Nat) : Char :=
  if n < 10 then Char.ofNat ('0'.toNat + n) else Char.ofNat ('a'.toNat + n - 10)

/-- The characters `JSON.stringify` emits for one string character:
quote and backslash are escaped, the named control escapes are used for
backspace, form feed, newline, carriage return and tab, every other
control character becomes a `\u00xx` escape, and all remaining characters
are emitted literally. -/
def escapeJsonChar (c : Char) : List Char :=
  if c = '"' then ['\\', '"']
  else if c = '\\' then ['\\', '\\']
  else if c = '\u0008' then ['\\', 'b']
  else if c = '\u000C' then ['\\', 'f']
  else if c = '\n' then ['\\', 'n']
  else if c = '\r' then ['\\', 'r']
  else if c = '\t' then ['\\', 't']
  else if c.toNat < 0x20 then
    ['\\', 'u', '0', '0', hexDigitCh (c.toNat / 16), hexDigitCh (c.toNat % 16)]
  else [c]

/-- The body `JSON.stringify` emits for a string (without the surrounding
quotes). -/
def escapeJsonString (s : String) : List Char :=
  (s.toList.map escapeJsonChar).flatten

theorem hexVal_hexDigitCh (n : Nat) (h : n < 16) :
    hexVal (hexDigitCh n) = some n := by
  interval_cases n <;> rfl

/-- Round trip: the string parser decodes exactly what the printer encoded
and stops at the closing quote. -/
theorem parseStrBody_escapeL (cs : List Char) (rest : List Char) :
    parseStrBody ((cs.map escapeJsonChar).flatten ++ '"' :: rest) = some (cs, rest) := by
  induction cs with
  | nil =>
    rw [List.map_nil, List.flatten_nil, List.nil_append, parseStrBody.eq_def]
    simp
  | cons c cs ih =>
    rw [List.map_cons, List.flatten_cons, List.append_assoc]
    by_cases h1 : c = '"'
    · subst h1
      rw [show escapeJsonChar '"' = ['\\', '"'] from rfl]
      rw [List.cons_append, List.cons_append, List.nil_append, parseStrBody.eq_def]
      simp [escCode, ih]
    by_cases h2 : c = '\\'
    · subst h2
      rw [show escapeJsonChar '\\' = ['\\', '\\'] from rfl]
      rw [List.cons_append, List.cons_append, List.nil_append, parseStrBody.eq_def]
      simp [escCode, ih]
    by_cases h3 : c = '\u0008'
    · subst h3
      rw [show escapeJsonChar '\u0008' = ['\\', 'b'] from rfl]
      rw [List.cons_append, List.cons_append, List.nil_append, parseStrBody.eq_def]
      simp [escCode, ih]
    by_cases h4 : c = '\u000C'
    · subst h4
      rw [show escapeJsonChar '\u000C' = ['\\', 'f'] from rfl]
      rw [List.cons_append, List.cons_append, List.nil_append, parseStrBody.eq_def]
      simp [escCode, ih]
    by_cases h5 : c = '\n'
    · subst h5
      rw [show escapeJsonChar '\n' = ['\\', 'n'] from rfl]
      rw [List.cons_append, List.cons_append, List.nil_append, parseStrBody.eq_def]
      simp [escCode, ih]
    by_cases h6 : c = '\r'
    · subst h6
      rw [show escapeJsonChar '\r' = ['\\', 'r'] from rfl]
      rw [List.cons_append, List.cons_append, List.nil_append, parseStrBody.eq_def]
      simp [escCode, ih]
    by_cases h7 : c = '\t'
    · subst h7
      rw [show escapeJsonChar '\t' = ['\\', 't'] from rfl]
      rw [List.cons_append, List.cons_append, List.nil_append, parseStrBody.eq_def]
      simp [escCode, ih]
    by_cases h8 : c.toNat < 0x20
    · rw [show escapeJsonChar c =
          ['\\', 'u', '0', '0', hexDigitCh (c.toNat / 16), hexDigitCh (c.toNat % 16)] from by
        simp [escapeJsonChar, h1, h2, h3, h4, h5, h6, h7, h8]]
      rw [List.cons_append, List.cons_append, List.cons_append, List.cons_append,
        List.cons_append, List.cons_append, List.nil_append, parseStrBody.eq_def]
      have hd1 : hexVal (hexDigitCh (c.toNat / 16)) = some (c.toNat / 16) :=
        hexVal_hexDigitCh _ (by omega)
      have hd2 : hexVal (hexDigitCh (c.toNat % 16)) = some (c.toNat % 16) :=
        hexVal_hexDigitCh _ (by omega)
      simp [show hexVal '0' = some 0 from rfl, hd1, hd2, ih]
      rw [show c.toNat / 16 * 16 + c.toNat % 16 = c.toNat by omega, Char.ofNat_toNat]
    · rw [show escapeJsonChar c = [c] from by
        simp [escapeJsonChar, h1, h2, h3, h4, h5, h6, h7, h8]]
      rw [List.cons_append, List.nil_append, parseStrBody.eq_def]
      simp [h1, h2, h8, ih]

/-- `parseStrBody_escapeL` restated through `escapeJsonString`. -/
theorem parseStrBody_escape (s : String) (rest : List Char) :
    parseStrBody (escapeJsonString s ++ '"' :: rest) = some (s.toList, rest) :=
  parseStrBody_escapeL s.toList rest


/-- `JSON.parse`: parse one value and require only whitespace to remain.
`none` models a thrown `SyntaxError`. -/
def parseJson (s : String) : Option Json :=
  match parseVal (s.length + 1) s.toList with
  | some (j, rest) => if skipWs rest = [] then some j else none
  | none => none

/-- JavaScript property access on a parsed JSON value: objects yield the
value of the named field (the last one, matching `JSON.parse`'s
duplicate-key semantics), every other value yields `undefined` (`none`). -/
def getProp : Json → String → Option Json
  | .obj fields, k =>
      fields.foldl (fun acc p => if p.1 = k then some p.2 else acc) none
  | _, _ => none

/-- JavaScript truthiness of a parsed JSON value: `null`, `false`, numeric
zero and the empty string are falsy; everything else (including empty
arrays and objects) is truthy. -/
def truthy : Json → Bool
  | .null => false
  | .bool b => b
  | .num _ ip fp _ _ => ip.any (· ≠ 0) || fp.any (· ≠ 0)
  | .str s => s ≠ ""
  | .arr _ => true
  | .obj _ => true

/-! ## Video-URL extraction (src/src/api/video.ts, `extractVideoUrl`) -/

/-- One entry of the lecture-detail response (`VideoCourse` of
src/src/types/index.ts).  `sub_content` is `Option String` because the
source guards against the field being absent at runtime
(`!videoResponse.list[0]?.sub_content`). -/
structure VideoCourse where
  id : String
  title : String
  realname : String
  sub_id : String
  sub_title : String
  sub_content : Option String
  course_begin : String
  course_over : String
  room_name : String
  lecturer_name : String
  sub_duration : String
  deriving Repr

/-- `VideoResponse` of src/src/types/index.ts. -/
structure VideoResponse where
  code : Int
  msg : String
  total : String
  list : List VideoCourse
  deriving Repr

/-- `extractVideoUrl` of src/src/api/video.ts: guard on an empty list or a
missing/empty `sub_content`; `JSON.parse` the doubly-encoded payload inside
a `try` (a parse failure, or the `TypeError` from accessing a property of
`null`, is swallowed and yields `null`); return `save_playback.contents`
when both are truthy, else `null`.  The returned value is the parsed JSON
value of the `contents` field (a string in every well-typed response). -/
def extractVideoUrl (videoResponse : VideoResponse) : Option Json :=
  match videoResponse.list.head? with
  | none => none
  | some first =>
      match first.sub_content with
      | none => none
      | some subContentStr =>
          if subContentStr = "" then none
          else
            match parseJson subContentStr with
            | none => none
            | some subContent =>
                match getProp subContent "save_playback" with
                | none => none
                | some savePlayback =>
                    if truthy savePlayback then
                      match getProp savePlayback "contents" with
                      | none => none
                      | some contents =>
                          if truthy contents then some contents else none
                    else none

/-- A lecture-detail response with a single entry carrying the given
`sub_content`. -/
def mkVideoResponse (subContent : Option String) : VideoResponse :=
  { code := 0, msg := "", total := "1",
    list := [{ id := "1", title := "t", realname := "r", sub_id := "2",
               sub_title := "st", sub_content := subContent,
               course_begin := "0", course_over := "0", room_name := "rm",
               lecturer_name := "l", sub_duration := "0" }] }

/-- Claim C3: `extractVideoUrl` is total (it is a Lean function into
`Option`, and every exceptional path of the source — the `JSON.parse`
`SyntaxError` and the property-access `TypeError` on `null` — is caught
and mapped to `none`).  The biconditional characterises its behaviour on
EVERY input: the result is present iff the list has a first entry whose
`sub_content` is a non-empty string that parses as JSON and carries a
truthy `save_playback` entry with a truthy `contents` field — so an empty
list, an absent or empty `sub_content`, unparseable JSON, a missing
`save_playback`, or an absent/empty `contents` all yield `none`, and
otherwise the result is the `contents` value.  The two closed conjuncts
are the specification's examples: `sub_content = ""` and
`sub_content = "not json"` both yield `none`. -/
theorem extractVideoUrl_total_characterization :
    (∀ (r : VideoResponse) (v : Json),
      extractVideoUrl r = some v ↔
        ∃ first, r.list.head? = some first ∧
        ∃ s, first.sub_content = some s ∧ s ≠ "" ∧
        ∃ j, parseJson s = some j ∧
        ∃ sp, getProp j "save_playback" = some sp ∧ truthy sp = true ∧
          getProp sp "contents" = some v ∧ truthy v = true) ∧
    extractVideoUrl (mkVideoResponse (some "")) = none ∧
    extractVideoUrl (mkVideoResponse (some "not json")) = none := by
  refine ⟨fun r v => ?_, by rfl, by rfl⟩
  constructor
  · intro h
    unfold extractVideoUrl at h
    split at h
    · simp at h
    next first hh =>
      split at h
      · simp at h
      next s hs =>
        split at h
        · simp at h
        next hse =>
          split at h
          · simp at h
          next j hj =>
            split at h
            · simp at h
            next sp hsp =>
              split at h
              next ht =>
                split at h
                · simp at h
                next cts hc =>
                  split at h
                  next htc =>
                    obtain rfl : cts = v := by simpa using h
                    exact ⟨first, hh, s, hs, hse, j, hj, sp, hsp, ht, hc, htc⟩
                  next htc => simp at h
              next ht => simp at h
  · rintro ⟨first, hh, s, hs, hse, j, hj, sp, hsp, ht, hc, htc⟩
    simp only [extractVideoUrl, hh, hs, if_neg hse, hj, hsp, if_pos ht, hc,
      if_pos htc]

/-- A first entry with no playable URL: its `sub_content` parses but has no
`save_playback` entry. -/
def entryNoPlayback : VideoCourse :=
  { id := "1", title := "t", realname := "r", sub_id := "2",
    sub_title := "st", sub_content := some "\x7b\x7d",
    course_begin := "0", course_over := "0", room_name := "rm",
    lecturer_name := "l", sub_duration := "0" }

/-- A second entry that does carry a playable URL. -/
def entryWithPlayback : VideoCourse :=
  { id := "2", title := "t2", realname := "r2", sub_id := "3",
    sub_title := "st2",
    sub_content := some "\x7b\"save_playback\":\x7b\"contents\":\"https://x/y.mp4\"\x7d\x7d",
    course_begin := "0", course_over := "0", room_name := "rm",
    lecturer_name := "l2", sub_duration := "0" }

/-- A response whose first entry has no playable URL while the second entry
carries one. -/
def twoEntryResponse : VideoResponse :=
  { code := 0, msg := "", total := "2",
    list := [entryNoPlayback, entryWithPlayback] }

/-- Claim C10: `extractVideoUrl` inspects only the first element of the
response list — its result on any response equals its result on the
response truncated to the first element alone, so whenever the first
element yields no playable URL the result is `none` even if a later
element carries a `save_playback` entry with a non-empty `contents` URL. -/
theorem extractVideoUrl_first_element_only (r : VideoResponse)
    (first : VideoCourse) (rest : List VideoCourse)
    (h : r.list = first :: rest) :
    extractVideoUrl r = extractVideoUrl { r with list := [first] } := by
  unfold extractVideoUrl
  rw [h]
  rfl

/-- Witness for C10 at a concrete input: with a first entry that has no
`save_playback` and a second entry that has a playable URL, the result is
`none` (computed through the theorem applied to `twoEntryResponse`). -/
theorem extractVideoUrl_first_element_only_witness :
    extractVideoUrl twoEntryResponse = none := by
  rw [extractVideoUrl_first_element_only twoEntryResponse
    entryNoPlayback [entryWithPlayback] rfl]
  rfl

/-! ## Credential store (src/unnamed/part_000: `parseCurlCommand`'s
companion functions `validateAuthInfo`, `saveAuthInfo`, `loadAuthInfo`,
`deleteAuthInfo`)

The persistent file `.pku-cli-auth.json` is modelled as `Option String`:
`none` when the file does not exist, `some content` otherwise.  `Bun.write`
with the empty string leaves an existing-but-empty file, so
`deleteAuthInfo` yields `some ""`, not `none`. -/

/-- `AuthInfo` of src/src/types/index.ts. -/
structure AuthInfo where
  authorization : String
  cookie : String
  deriving Repr, DecidableEq

/-- `validateAuthInfo` of src/unnamed/part_000. -/
def validateAuthInfo (authInfo : AuthInfo) : Bool :=
  startsWithStr authInfo.authorization "Bearer " &&
  decide (0 < authInfo.cookie.length)

/-- The characters of `JSON.stringify(authInfo, null, 2)`: a two-field
object pretty-printed with a two-space indent, fields in declaration
order. -/
def stringifyAuthInfoL (info : AuthInfo) : List Char :=
  "\x7b\n  \"authorization\": \"".toList ++
    (escapeJsonString info.authorization ++
      ("\",\n  \"cookie\": \"".toList ++
        (escapeJsonString info.cookie ++ "\"\n\x7d".toList)))

/-- `JSON.stringify(authInfo, null, 2)` as a string. -/
def stringifyAuthInfo (info : AuthInfo) : String :=
  String.mk (stringifyAuthInfoL info)

/-- The modelled credential file. -/
abbrev AuthFile := Option String

/-- `saveAuthInfo`: unconditionally overwrite the file with the serialized
credential. -/
def saveAuthInfo (info : AuthInfo) : AuthFile :=
  some (stringifyAuthInfo info)

/-- `deleteAuthInfo`: `Bun.write(path, "")` empties (or creates) the file. -/
def deleteAuthInfo : AuthFile :=
  some ""

/-- The dynamic outcome of `validateAuthInfo(JSON.parse(content) as
AuthInfo)` on an arbitrary parsed JSON value: `none` models a thrown
`TypeError` (property access on `null`/`undefined`, `.startsWith` of a
non-string, `.length` of `null`/`undefined`), `some b` the returned
boolean.  A non-string `cookie` that is not `null` has `.length` equal to
`undefined` (falsy comparison) except arrays, whose `length` is their
element count. -/
def jsValidateDyn (j : Json) : Option Bool :=
  match j with
  | .obj _ =>
      match getProp j "authorization" with
      | some (.str a) =>
          if startsWithStr a "Bearer " then
            match getProp j "cookie" with
            | some (.str c) => some (decide (0 < c.length))
            | some (.arr xs) => some (decide (0 < xs.length))
            | some (.num b ip fp e ep) =>
                some ((fun _ => false) (Json.num b ip fp e ep))
            | some (.bool _) => some false
            | some (.obj _) => some false
            | some .null => none
            | none => none
          else some false
      | _ => none
  | _ => none

/-- What `loadAuthInfo` hands back when it returns non-null: the well-typed
credential, or (only reachable from a hand-crafted file whose `cookie` is a
non-empty array) the mistyped parsed object. -/
inductive LoadedCred where
  | typed : AuthInfo → LoadedCred
  | mistyped : String → Json → LoadedCred
  deriving Repr

/-- `loadAuthInfo` of src/unnamed/part_000, as a function of the modelled
file state, returning the loaded value and the possibly self-healed file
state: an absent file yields `null`; a `JSON.parse` failure or a
`TypeError` inside `validateAuthInfo` is caught and triggers
`deleteAuthInfo`; a well-formed but invalid credential falls through to
`null` without touching the file. -/
def loadAuthInfo (file : AuthFile) : Option LoadedCred × AuthFile :=
  match file with
  | none => (none, none)
  | some content =>
      match parseJson content with
      | none => (none, deleteAuthInfo)
      | some j =>
          match jsValidateDyn j with
          | none => (none, deleteAuthInfo)
          | some false => (none, some content)
          | some true =>
              match getProp j "authorization", getProp j "cookie" with
              | some (.str a), some (.str c) => (some (.typed ⟨a, c⟩), some content)
              | some (.str a), some ck => (some (.mistyped a ck), some content)
              | _, _ => (none, some content)

/-- The fuel-indexed parser accepts the printed credential object for
every fuel of the form `m + 4`. -/
theorem parseVal_stringify (m : Nat) (a c : String) :
    parseVal (m + 4) (stringifyAuthInfoL ⟨a, c⟩) =
      some (.obj [("authorization", .str a), ("cookie", .str c)], []) := by
  show (parseMembers (m + 3)
      ('\n':: ' ':: ' ':: '"':: 'a':: 'u':: 't':: 'h':: 'o':: 'r':: 'i':: 'z':: 'a':: 't':: 'i':: 'o':: 'n':: '"':: ':':: ' ':: '"'::
        (escapeJsonString a ++ ("\",\n  \"cookie\": \"".toList ++
          (escapeJsonString c ++ "\"\n\x7d".toList))))).map (fun p => (Json.obj p.1, p.2))
    = some (.obj [("authorization", .str a), ("cookie", .str c)], [])
  rw [show (m + 3) = (m + 2) + 1 from rfl, parseMembers_succ]
  show (((parseStrBody (escapeJsonString a ++ ("\",\n  \"cookie\": \"".toList ++
      (escapeJsonString c ++ "\"\n\x7d".toList)))).map
        (fun p => (Json.str (String.mk p.1), p.2))).bind
      (parseMembersSep (m + 2) ['a','u','t','h','o','r','i','z','a','t','i','o','n'])).map
    (fun p => (Json.obj p.1, p.2))
    = some (.obj [("authorization", .str a), ("cookie", .str c)], [])
  rw [show ("\",\n  \"cookie\": \"".toList ++ (escapeJsonString c ++ "\"\n\x7d".toList))
      = '"' :: (',':: '\n':: ' ':: ' ':: '"':: 'c':: 'o':: 'o':: 'k':: 'i':: 'e':: '"':: ':':: ' ':: '"'::
        (escapeJsonString c ++ "\"\n\x7d".toList)) from rfl]
  rw [parseStrBody_escape]
  show ((((parseStrBody (escapeJsonString c ++ "\"\n\x7d".toList)).map
        (fun p => (Json.str (String.mk p.1), p.2))).bind
      (parseMembersSep (m + 1) ['c','o','o','k','i','e'])).map
    (fun q => ((String.mk ['a','u','t','h','o','r','i','z','a','t','i','o','n'],
      Json.str (String.mk a.toList)) :: q.1, q.2))).map (fun p => (Json.obj p.1, p.2))
    = some (.obj [("authorization", .str a), ("cookie", .str c)], [])
  rw [show ("\"\n\x7d".toList : List Char) = '"' :: ('\n':: '}'::[]) from rfl]
  rw [parseStrBody_escape]
  rfl

/-- `JSON.parse` inverts `JSON.stringify` on the credential object. -/
theorem parseJson_stringify (info : AuthInfo) :
    parseJson (stringifyAuthInfo info) =
      some (.obj [("authorization", .str info.authorization),
                  ("cookie", .str info.cookie)]) := by
  obtain ⟨a, c⟩ := info
  have hlen : 3 ≤ (stringifyAuthInfoL ⟨a, c⟩).length := by
    simp [stringifyAuthInfoL]
  show (match parseVal ((stringifyAuthInfo ⟨a, c⟩).length + 1)
      (stringifyAuthInfoL ⟨a, c⟩) with
    | some (j, rest) => if skipWs rest = [] then some j else none
    | none => none) = _
  rw [show (stringifyAuthInfo ⟨a, c⟩).length = (stringifyAuthInfoL ⟨a, c⟩).length from rfl]
  rw [show (stringifyAuthInfoL ⟨a, c⟩).length + 1
      = ((stringifyAuthInfoL ⟨a, c⟩).length - 3) + 4 from by omega]
  rw [parseVal_stringify]
  rfl

/-- Claim C6: save/load round trip.  For every valid credential (the
source's own validity predicate: authorization starts with `"Bearer "` and
the cookie is non-empty), loading immediately after saving returns exactly
that credential, and leaves the file as the save wrote it. -/
theorem loadAuthInfo_saveAuthInfo (info : AuthInfo)
    (h : validateAuthInfo info = true) :
    loadAuthInfo (saveAuthInfo info) = (some (.typed info), saveAuthInfo info) := by
  obtain ⟨a, c⟩ := info
  simp only [validateAuthInfo, Bool.and_eq_true] at h
  obtain ⟨h1, h2⟩ := h
  have hga : getProp (.obj [("authorization", .str a), ("cookie", .str c)])
      "authorization" = some (.str a) := rfl
  have hgc : getProp (.obj [("authorization", .str a), ("cookie", .str c)])
      "cookie" = some (.str c) := rfl
  show (match parseJson (stringifyAuthInfo ⟨a, c⟩) with
    | none => ((none : Option LoadedCred), deleteAuthInfo)
    | some j =>
        match jsValidateDyn j with
        | none => (none, deleteAuthInfo)
        | some false => (none, some (stringifyAuthInfo ⟨a, c⟩))
        | some true =>
            match getProp j "authorization", getProp j "cookie" with
            | some (.str a'), some (.str c') =>
                (some (.typed ⟨a', c'⟩), some (stringifyAuthInfo ⟨a, c⟩))
            | some (.str a'), some ck => (some (.mistyped a' ck), some (stringifyAuthInfo ⟨a, c⟩))
            | _, _ => (none, some (stringifyAuthInfo ⟨a, c⟩))) = _
  rw [parseJson_stringify]
  simp only [jsValidateDyn, hga, hgc, h1, if_pos rfl, h2]
  rfl

/-- Witness for C6 at a concrete credential. -/
theorem loadAuthInfo_saveAuthInfo_witness :
    loadAuthInfo (saveAuthInfo ⟨"Bearer tok", "sid=1"⟩) =
      (some (.typed ⟨"Bearer tok", "sid=1"⟩), saveAuthInfo ⟨"Bearer tok", "sid=1"⟩) :=
  loadAuthInfo_saveAuthInfo ⟨"Bearer tok", "sid=1"⟩ (by decide)

/-- Claim C7: for every storage content that is not valid JSON, loading
returns absent and clears (empties) the storage location before returning,
and a subsequent load of the cleared location again returns absent. -/
theorem loadAuthInfo_corrupt (s : String) (h : parseJson s = none) :
    loadAuthInfo (some s) = (none, some "") ∧
    loadAuthInfo (some "") = (none, some "") := by
  constructor
  · show (match parseJson s with
      | none => ((none : Option LoadedCred), deleteAuthInfo)
      | some j =>
          match jsValidateDyn j with
          | none => (none, deleteAuthInfo)
          | some false => (none, some s)
          | some true =>
              match getProp j "authorization", getProp j "cookie" with
              | some (.str a'), some (.str c') => (some (.typed ⟨a', c'⟩), some s)
              | some (.str a'), some ck => (some (.mistyped a' ck), some s)
              | _, _ => (none, some s)) = _
    rw [h]
    rfl
  · rfl

/-- Witness for C7 at concrete garbage content. -/
theorem loadAuthInfo_corrupt_witness :
    loadAuthInfo (some "not json at all \x7b") = (none, some "") ∧
    loadAuthInfo (some "") = (none, some "") :=
  loadAuthInfo_corrupt "not json at all \x7b" (by rfl)


/-! ## Date serialization and the schedule request URL
(src/src/utils/http.ts `formatDate`, src/src/api/courses.ts `getCourses`) -/

/-- The decimal digit character of `n % 10`. -/
def digitCh (n : Nat) : Char :=
  Char.ofNat ('0'.toNat + n % 10)

/-- Decimal digits of a natural number (the behaviour of JavaScript
`String(n)` for integral non-negative numbers), via sufficient fuel. -/
def natDigitsAux : Nat → Nat → List Char
  | 0, _ => []
  | fuel + 1, n =>
      if n < 10 then [digitCh n] else natDigitsAux fuel (n / 10) ++ [digitCh n]

/-- Decimal digits of `n`. -/
def natDigits (n : Nat) : List Char :=
  natDigitsAux (n + 1) n

/-- JavaScript `String(n)` for an integer (as produced by template
interpolation of `buildingId`). -/
def intToString (i : Int) : String :=
  if i < 0 then String.mk ('-' :: natDigits i.natAbs)
  else String.mk (natDigits i.natAbs)

/-- JavaScript `String.prototype.padStart(2, "0")`. -/
def padStart2 (cs : List Char) : List Char :=
  if cs.length < 2 then List.replicate (2 - cs.length) '0' ++ cs else cs

/-- A calendar date as the source reads it off a JS `Date`
(`getFullYear()`, `getMonth() + 1`, `getDate()`). -/
structure JsDate where
  year : Nat
  month : Nat
  day : Nat
  deriving Repr, DecidableEq

/-- `formatDate` of src/src/utils/http.ts: year as-is, month and day
zero-padded to two characters, joined with hyphens. -/
def formatDate (date : JsDate) : String :=
  String.mk (natDigits date.year) ++ "-" ++
  String.mk (padStart2 (natDigits date.month)) ++ "-" ++
  String.mk (padStart2 (natDigits date.day))

/-- `getCourses` of src/src/api/courses.ts builds this URL; the
`building_in` filter is appended under `if (buildingId)`, i.e. only when
the optional building id is present AND truthy (non-zero). -/
def coursesUrlBase (date : JsDate) : String :=
  "https://onlineroomse.pku.edu.cn/courseapi/v2/course-live/search-live-course-list?need_time_quantum=1&unique_course=1&with_sub_duration=1&search_time="
    ++ formatDate date
    ++ "&tenant=226&course_student_type=&sub_live_status=&with_sub_data=1"

/-- The `url += \x60&building_in=...\x60` conditional append of `getCourses`. -/
def getCoursesUrl (date : JsDate) (buildingId : Option Int) : String :=
  let url := coursesUrlBase date
  match buildingId with
  | some b => if b ≠ 0 then url ++ ("&building_in=" ++ intToString b) else url
  | none => url

/-- The date string in the words of the specification: `YYYY-MM-DD`, four
year digits and zero-padded month and day, each digit extracted
arithmetically. -/
def specYYYYMMDD (y m d : Nat) : String :=
  String.mk [digitCh (y / 1000), digitCh (y / 100), digitCh (y / 10), digitCh y,
             '-', digitCh (m / 10), digitCh m, '-', digitCh (d / 10), digitCh d]

theorem natDigitsAux_succ (f n : Nat) :
    natDigitsAux (f + 1) n =
      if n < 10 then [digitCh n] else natDigitsAux f (n / 10) ++ [digitCh n] := rfl

theorem natDigitsAux_eval1 (f n : Nat) (hf : 1 ≤ f) (h : n < 10) :
    natDigitsAux f n = [digitCh n] := by
  obtain ⟨g, rfl⟩ : ∃ g, f = g + 1 := ⟨f - 1, by omega⟩
  rw [natDigitsAux_succ, if_pos h]

theorem natDigitsAux_eval2 (f n : Nat) (hf : 2 ≤ f) (h1 : 10 ≤ n)
    (h2 : n < 100) : natDigitsAux f n = [digitCh (n / 10), digitCh n] := by
  obtain ⟨g, rfl⟩ : ∃ g, f = g + 1 := ⟨f - 1, by omega⟩
  rw [natDigitsAux_succ, if_neg (by omega),
    natDigitsAux_eval1 g (n / 10) (by omega) (by omega)]
  rfl

theorem natDigitsAux_eval4 (f n : Nat) (hf : 4 ≤ f) (h1 : 1000 ≤ n)
    (h2 : n < 10000) :
    natDigitsAux f n =
      [digitCh (n / 1000), digitCh (n / 100), digitCh (n / 10), digitCh n] := by
  obtain ⟨g, rfl⟩ : ∃ g, f = g + 1 := ⟨f - 1, by omega⟩
  rw [natDigitsAux_succ, if_neg (by omega)]
  obtain ⟨g', rfl⟩ : ∃ g', g = g' + 1 := ⟨g - 1, by omega⟩
  rw [natDigitsAux_succ, if_neg (by omega),
    natDigitsAux_eval2 g' (n / 10 / 10) (by omega) (by omega) (by omega)]
  rw [show n / 10 / 10 = n / 100 by omega, show n / 100 / 10 = n / 1000 by omega]
  rfl

/-- Claim C5, counterexample: `building_in` is NOT appended for every
present `buildingId` — a present but zero id (JS-falsy) is dropped, so the
URL coincides with the no-filter URL and contains no `building_in`. -/
theorem getCoursesUrl_zero_counterexample :
    getCoursesUrl ⟨2025, 9, 26⟩ (some 0) = getCoursesUrl ⟨2025, 9, 26⟩ none ∧
    containsStr (getCoursesUrl ⟨2025, 9, 26⟩ (some 0)) "building_in" = false := by
  refine ⟨rfl, by decide⟩

/-- Claim C5 (amended): for every credential, in-range calendar date and
optional buildingId, the request URL serializes the date as `YYYY-MM-DD`
with zero-padded month and day (proved against an independent digit-level
rendering of the spec's format), and the `building_in` filter parameter is
appended exactly when `buildingId` is present AND non-zero (JS truthiness
of the `if (buildingId)` guard); its omission — including the present-but-
zero case — yields the unfiltered all-buildings URL. -/
theorem getCoursesUrl_spec (y m d : Nat) (bid : Option Int)
    (hy1 : 1000 ≤ y) (hy2 : y ≤ 9999) (hm1 : 1 ≤ m) (hm2 : m ≤ 12)
    (hd1 : 1 ≤ d) (hd2 : d ≤ 31) :
    formatDate ⟨y, m, d⟩ = specYYYYMMDD y m d ∧
    getCoursesUrl ⟨y, m, d⟩ bid =
      getCoursesUrl ⟨y, m, d⟩ none ++
        (match bid with
         | some b => if b ≠ 0 then "&building_in=" ++ intToString b else ""
         | none => "") := by
  have hfmt : formatDate ⟨y, m, d⟩ = specYYYYMMDD y m d := by
    have hy : natDigits y =
        [digitCh (y / 1000), digitCh (y / 100), digitCh (y / 10), digitCh y] :=
      natDigitsAux_eval4 (y + 1) y (by omega) (by omega) (by omega)
    have hmth : padStart2 (natDigits m) = [digitCh (m / 10), digitCh m] := by
      by_cases hm : m < 10
      · rw [show natDigits m = [digitCh m] from
          natDigitsAux_eval1 (m + 1) m (by omega) hm]
        rw [show (m / 10) = 0 by omega]
        rfl
      · rw [show natDigits m = [digitCh (m / 10), digitCh m] from
          natDigitsAux_eval2 (m + 1) m (by omega) (by omega) (by omega)]
        rfl
    have hday : padStart2 (natDigits d) = [digitCh (d / 10), digitCh d] := by
      by_cases hdd : d < 10
      · rw [show natDigits d = [digitCh d] from
          natDigitsAux_eval1 (d + 1) d (by omega) hdd]
        rw [show (d / 10) = 0 by omega]
        rfl
      · rw [show natDigits d = [digitCh (d / 10), digitCh d] from
          natDigitsAux_eval2 (d + 1) d (by omega) (by omega) (by omega)]
        rfl
    show String.mk (natDigits y) ++ "-" ++ String.mk (padStart2 (natDigits m))
        ++ "-" ++ String.mk (padStart2 (natDigits d)) = _
    rw [hy, hmth, hday]
    rfl
  refine ⟨hfmt, ?_⟩
  cases bid with
  | none => exact (String.append_empty _).symm
  | some b =>
      by_cases hb : b = 0
      · subst hb
        exact (String.append_empty _).symm
      · show (if b ≠ 0 then coursesUrlBase ⟨y, m, d⟩ ++ ("&building_in=" ++ intToString b)
            else coursesUrlBase ⟨y, m, d⟩) = _
        rw [if_pos hb]
        show _ = getCoursesUrl ⟨y, m, d⟩ none ++
          (if b ≠ 0 then "&building_in=" ++ intToString b else "")
        rw [if_pos hb]
        rfl

/-- Witness for C5's amended theorem at a concrete date and building. -/
theorem getCoursesUrl_spec_witness :
    formatDate ⟨2025, 9, 26⟩ = specYYYYMMDD 2025 9 26 ∧
    getCoursesUrl ⟨2025, 9, 26⟩ (some 314) =
      getCoursesUrl ⟨2025, 9, 26⟩ none ++ ("&building_in=" ++ intToString 314) :=
  ⟨(getCoursesUrl_spec 2025 9 26 (some 314) (by omega) (by omega) (by omega)
      (by omega) (by omega) (by omega)).1,
   by
    have h := (getCoursesUrl_spec 2025 9 26 (some 314) (by omega) (by omega)
      (by omega) (by omega) (by omega) (by omega)).2
    simpa using h⟩


/-! ## Session orchestration (src/src/index.ts: `handleApiError` and the
fetch chain of `main`)

The interactive prompts are inputs to the model; each network fetch is an
input `Except String _` whose error is the thrown error's message (for a
non-2xx transport response, `httpGet` throws `HTTP error! status: <n>`).
The model returns the final credential-file state, the exit disposition,
and which fetch steps were attempted. -/

/-- `Building` of src/src/types/index.ts. -/
structure Building where
  building_id : Int
  building_name : String
  deriving Repr

/-- `Campus` of src/src/types/index.ts. -/
structure Campus where
  campus_id : Int
  campus_name : String
  building_list : List Building
  deriving Repr

/-- `BuildingsResponse` of src/src/types/index.ts. -/
structure BuildingsResponse where
  code : Int
  msg : String
  total : String
  list : List Campus
  deriving Repr

/-- `TimeSlot` of src/src/types/index.ts (fields the flow reads). -/
structure TimeSlot where
  id : Int
  name : String
  list : List Course
  deriving Repr

/-- `CoursesResponse` of src/src/types/index.ts. -/
structure CoursesResponse where
  code : Int
  msg : String
  total : Int
  list : List TimeSlot
  deriving Repr

/-- The message of the error `httpGet` throws on a non-2xx transport
response: `HTTP error! status: ${status}`. -/
def httpErrorMsg (status : Nat) : String :=
  "HTTP error! status: " ++ String.mk (natDigits status)

/-- The authorization-failure classification of `handleApiError`: the
error message contains "401", "403", "Unauthorized" or "Forbidden". -/
def isAuthError (errorMsg : String) : Bool :=
  containsStr errorMsg "401" || containsStr errorMsg "403" ||
  containsStr errorMsg "Unauthorized" || containsStr errorMsg "Forbidden"

/-- `handleApiError` of src/src/index.ts: on an authorization-classified
message delete the stored credential, then cancel and exit(1).  Returns
the resulting file state (exit code is always 1). -/
def handleApiError (errorMsg : String) (file : AuthFile) : AuthFile :=
  if isAuthError errorMsg then deleteAuthInfo else file

/-- Result of one orchestrated run: final credential-file state, exit code
(`none` means the run went on past video resolution), whether the
schedule fetch was attempted, whether the lecture-detail fetch was
attempted, and the resolved video URL if any. -/
structure MainTrace where
  file : AuthFile
  exit : Option Nat
  coursesFetchAttempted : Bool
  videoFetchAttempted : Bool
  resolvedUrl : Option Json
  deriving Repr

/-- The fetch chain of `main` (src/src/index.ts): buildings fetch (thrown
errors and non-zero envelope codes both routed through `handleApiError`),
then `saveAuthInfo`, then the schedule fetch (thrown errors through
`handleApiError`, but a non-zero envelope code exits directly WITHOUT
`handleApiError`), course flattening and filtering, then the
lecture-detail fetch (same split), then `extractVideoUrl`. -/
def mainModel (auth : AuthInfo) (file0 : AuthFile)
    (buildingsResult : Except String BuildingsResponse)
    (coursesResult : Except String CoursesResponse)
    (searchTerm : String)
    (videoResult : Except String VideoResponse) : MainTrace :=
  match buildingsResult with
  | .error e => ⟨handleApiError e file0, some 1, false, false, none⟩
  | .ok br =>
      if br.code ≠ 0 then
        ⟨handleApiError br.msg file0, some 1, false, false, none⟩
      else
        let file1 := saveAuthInfo auth
        match coursesResult with
        | .error e => ⟨handleApiError e file1, some 1, true, false, none⟩
        | .ok cr =>
            if cr.code ≠ 0 then ⟨file1, some 1, true, false, none⟩
            else
              let allCourses := (cr.list.map TimeSlot.list).flatten
              if allCourses.isEmpty then ⟨file1, some 0, true, false, none⟩
              else
                let filtered := filterCourses allCourses searchTerm
                if filtered.isEmpty then ⟨file1, some 0, true, false, none⟩
                else
                  match videoResult with
                  | .error e => ⟨handleApiError e file1, some 1, true, true, none⟩
                  | .ok vr =>
                      if vr.code ≠ 0 then ⟨file1, some 1, true, true, none⟩
                      else
                        match extractVideoUrl vr with
                        | none => ⟨file1, some 1, true, true, none⟩
                        | some u => ⟨file1, none, true, true, some u⟩

/-- A successful buildings response. -/
def okBuildings : BuildingsResponse :=
  { code := 0, msg := "", total := "1",
    list := [{ campus_id := 1, campus_name := "c",
               building_list := [{ building_id := 1, building_name := "b" }] }] }

/-- A schedule response that fails at the application level with an
authorization-classified message. -/
def unauthorizedCourses : CoursesResponse :=
  { code := 1, msg := "Unauthorized", total := 0, list := [] }

/-- A placeholder lecture-detail result (never reached in the
counterexample run). -/
def unusedVideo : Except String VideoResponse :=
  .ok { code := 0, msg := "", total := "0", list := [] }

/-- A successful schedule response carrying one course, so the run
reaches the lecture-detail fetch. -/
def okCoursesOne : CoursesResponse :=
  { code := 0, msg := "", total := 1,
    list := [{ id := 1, name := "slot",
               list := [mkCourse "Algebra" "Smith" "R101"] }] }

/-- Claim C4, counterexample: an APPLICATION-level authorization failure at
the schedule step does not clear the stored credential.  With the schedule
envelope `{code: 1, msg: "Unauthorized"}` — authorization-classified per
the claim's own criterion — the run reaches the terminal failure state
with the saved credential still in the store (the source exits directly
without calling `handleApiError` at this site), contradicting "the
orchestrator clears the stored credential before entering the terminal
failure state". -/
theorem mainModel_app_error_counterexample :
    mainModel ⟨"Bearer t", "c=1"⟩ (some "old") (.ok okBuildings)
        (.ok unauthorizedCourses) "" unusedVideo =
      ⟨saveAuthInfo ⟨"Bearer t", "c=1"⟩, some 1, true, false, none⟩ ∧
    isAuthError "Unauthorized" = true ∧
    saveAuthInfo ⟨"Bearer t", "c=1"⟩ ≠ deleteAuthInfo := by
  refine ⟨rfl, by decide, ?_⟩
  intro h
  exact absurd (congrArg (fun f => (f.getD "").length) h) (by decide)

/-- Claim C4 (amended): a THROWN (transport-level) error with an
authorization-classified message clears the stored credential at every
fetch step — locations, schedule, and lecture-detail — and an
application-level error (non-zero envelope code) does so only at the
locations step; in every one of these failure cases the run reaches the
terminal failure state (exit 1) and no later fetch step is attempted —
but an application-level authorization failure at the schedule or
lecture-detail step terminates with the credential left in place. -/
theorem mainModel_auth_failure_handling (auth : AuthInfo) (file0 : AuthFile)
    (br : Except String BuildingsResponse)
    (cr : Except String CoursesResponse) (term : String)
    (vr : Except String VideoResponse) :
    (∀ e, isAuthError e = true → br = .error e →
      mainModel auth file0 br cr term vr =
        ⟨deleteAuthInfo, some 1, false, false, none⟩) ∧
    (∀ b, br = .ok b → b.code ≠ 0 → isAuthError b.msg = true →
      mainModel auth file0 br cr term vr =
        ⟨deleteAuthInfo, some 1, false, false, none⟩) ∧
    (∀ b e, br = .ok b → b.code = 0 → cr = .error e → isAuthError e = true →
      mainModel auth file0 br cr term vr =
        ⟨deleteAuthInfo, some 1, true, false, none⟩) ∧
    (∀ b c, br = .ok b → b.code = 0 → cr = .ok c → c.code ≠ 0 →
      mainModel auth file0 br cr term vr =
        ⟨saveAuthInfo auth, some 1, true, false, none⟩) ∧
    (∀ b c e, br = .ok b → b.code = 0 → cr = .ok c → c.code = 0 →
      ((c.list.map TimeSlot.list).flatten).isEmpty = false →
      (filterCourses ((c.list.map TimeSlot.list).flatten) term).isEmpty = false →
      vr = .error e → isAuthError e = true →
      mainModel auth file0 br cr term vr =
        ⟨deleteAuthInfo, some 1, true, true, none⟩) ∧
    (∀ b c v, br = .ok b → b.code = 0 → cr = .ok c → c.code = 0 →
      ((c.list.map TimeSlot.list).flatten).isEmpty = false →
      (filterCourses ((c.list.map TimeSlot.list).flatten) term).isEmpty = false →
      vr = .ok v → v.code ≠ 0 → isAuthError v.msg = true →
      mainModel auth file0 br cr term vr =
        ⟨saveAuthInfo auth, some 1, true, true, none⟩) := by
  refine ⟨?_, ?_, ?_, ?_, ?_, ?_⟩
  · rintro e hauth rfl
    simp [mainModel, handleApiError, hauth]
  · rintro b rfl hcode hauth
    simp [mainModel, if_pos hcode, handleApiError, hauth]
  · rintro b e rfl hcode rfl hauth
    simp [mainModel, hcode, handleApiError, hauth]
  · rintro b c rfl hcode rfl hccode
    simp [mainModel, hcode, if_pos hccode]
  · rintro b c e rfl hbcode rfl hccode hne hfe rfl hauth
    simp [mainModel, hbcode, hccode, hne, hfe, handleApiError, hauth]
  · rintro b c v rfl hbcode rfl hccode hne hfe rfl hvcode hvauth
    simp [mainModel, hbcode, hccode, hne, hfe, if_pos hvcode]

/-- Witness for C4's amended theorem: a transport 401 on the schedule fetch
clears the credential, terminates, and never attempts the detail fetch;
and a transport 401 on the lecture-detail fetch (reached through a
one-course schedule) also clears the credential and terminates. -/
theorem mainModel_auth_failure_handling_witness :
    (mainModel ⟨"Bearer t", "c=1"⟩ (some "old") (.ok okBuildings)
        (.error (httpErrorMsg 401)) "" unusedVideo =
      ⟨deleteAuthInfo, some 1, true, false, none⟩) ∧
    (mainModel ⟨"Bearer t", "c=1"⟩ (some "old") (.ok okBuildings)
        (.ok okCoursesOne) "" (.error (httpErrorMsg 401)) =
      ⟨deleteAuthInfo, some 1, true, true, none⟩) :=
  ⟨(mainModel_auth_failure_handling ⟨"Bearer t", "c=1"⟩ (some "old")
      (.ok okBuildings) (.error (httpErrorMsg 401)) "" unusedVideo).2.2.1
    okBuildings (httpErrorMsg 401) rfl rfl rfl (by decide),
   (mainModel_auth_failure_handling ⟨"Bearer t", "c=1"⟩ (some "old")
      (.ok okBuildings) (.ok okCoursesOne) "" (.error (httpErrorMsg 401))).2.2.2.2.1
    okBuildings okCoursesOne (httpErrorMsg 401) rfl rfl rfl rfl (by rfl) (by rfl)
    rfl (by decide)⟩


/-! ## Credential extraction from a raw curl command
(src/unnamed/part_000, `parseCurlCommand`)

The source's regular expressions are embedded as explicit scanners.  Every
pattern in the source has the shape
`<literal flag><ws+><quote>[<literal header name><ws*>]([^<quote>]+)<quote>`;
in all of them each greedy element (`\s+`, `\s*`, `[^q]+`) is followed by a
token disjoint from its character class, so maximal-munch matching without
backtracking coincides with the regex semantics. -/

/-- One non-capturing regex element of the source's patterns: a literal
character, a case-insensitive literal (stored lower-case; `/i` patterns),
`\s+`, `\s*`. -/
inductive RegTok where
  | lit : Char → RegTok
  | litCI : Char → RegTok
  | ws1 : RegTok
  | ws0 : RegTok
  deriving Repr, DecidableEq

/-- Match a token list at the head of the input, returning the remaining
input. -/
def matchToks : List RegTok → List Char → Option (List Char)
  | [], cs => some cs
  | .lit c :: ts, x :: cs => if x = c then matchToks ts cs else none
  | .litCI c :: ts, x :: cs => if x.toLower = c then matchToks ts cs else none
  | .ws1 :: ts, cs =>
      let run := cs.takeWhile jsIsWs
      if run.isEmpty then none else matchToks ts (cs.dropWhile jsIsWs)
  | .ws0 :: ts, cs => matchToks ts (cs.dropWhile jsIsWs)
  | _ :: _, [] => none

/-- The final `([^q]+)q` of every pattern: a non-empty capture up to the
closing quote, which must be present. -/
def capMatch (q : Char) (cs : List Char) : Option (List Char) :=
  let cap := cs.takeWhile (· ≠ q)
  match cs.dropWhile (· ≠ q) with
  | c :: _ => if cap.isEmpty then none else if c = q then some cap else none
  | [] => none

/-- Match one full source pattern (tokens, then capture-to-quote) at the
head of the input, returning the capture group. -/
def matchPatAt (toks : List RegTok) (q : Char) (cs : List Char) :
    Option (List Char) :=
  (matchToks toks cs).bind (capMatch q)

/-- Leftmost match of one pattern (JS `String.prototype.match` with a
non-global, non-anchored regex): try every start position left to right. -/
def scanFirst (toks : List RegTok) (q : Char) : List Char → Option (List Char)
  | [] => none
  | c :: cs =>
      match matchPatAt toks q (c :: cs) with
      | some cap => some cap
      | none => scanFirst toks q cs

/-- The source's `for (const pattern of patterns) { const match =
normalizedCommand.match(pattern); if (match && match[1]) { ...; break } }`:
first pattern with a (necessarily non-empty) capture wins. -/
def tryPatterns : List (List RegTok × Char) → List Char → Option (List Char)
  | [], _ => none
  | (toks, q) :: ps, cs =>
      match scanFirst toks q cs with
      | some cap => some cap
      | none => tryPatterns ps cs

/-- Tokens of a case-insensitive (`/i`) literal: letters become
case-insensitive, everything else exact. -/
def ciTokens (s : String) : List RegTok :=
  s.toList.map (fun c => if c.isAlpha then RegTok.litCI c.toLower else RegTok.lit c)

/-- Tokens of a case-sensitive literal. -/
def csTokens (s : String) : List RegTok :=
  s.toList.map RegTok.lit

/-- The four authorization patterns of the source, in order. -/
def authPatterns : List (List RegTok × Char) :=
  [(ciTokens "-H" ++ [.ws1, .lit '\''] ++ ciTokens "authorization:" ++ [.ws0] ++ ciTokens "Bearer" ++ [.ws1], '\''),
   (ciTokens "-H" ++ [.ws1, .lit '"'] ++ ciTokens "authorization:" ++ [.ws0] ++ ciTokens "Bearer" ++ [.ws1], '"'),
   (ciTokens "--header" ++ [.ws1, .lit '\''] ++ ciTokens "authorization:" ++ [.ws0] ++ ciTokens "Bearer" ++ [.ws1], '\''),
   (ciTokens "--header" ++ [.ws1, .lit '"'] ++ ciTokens "authorization:" ++ [.ws0] ++ ciTokens "Bearer" ++ [.ws1], '"')]

/-- The eight cookie patterns of the source, in order (`-b`/`--cookie` are
case-sensitive, the header forms carry `/i`). -/
def cookiePatterns : List (List RegTok × Char) :=
  [(csTokens "-b" ++ [.ws1, .lit '\''], '\''),
   (csTokens "-b" ++ [.ws1, .lit '"'], '"'),
   (csTokens "--cookie" ++ [.ws1, .lit '\''], '\''),
   (csTokens "--cookie" ++ [.ws1, .lit '"'], '"'),
   (ciTokens "-H" ++ [.ws1, .lit '\''] ++ ciTokens "cookie:" ++ [.ws0], '\''),
   (ciTokens "-H" ++ [.ws1, .lit '"'] ++ ciTokens "cookie:" ++ [.ws0], '"'),
   (ciTokens "--header" ++ [.ws1, .lit '\''] ++ ciTokens "cookie:" ++ [.ws0], '\''),
   (ciTokens "--header" ++ [.ws1, .lit '"'] ++ ciTokens "cookie:" ++ [.ws0], '"')]

/-! Normalization: `.replace(/\\\s*\n\s*/g, " ").replace(/\\\n/g, " ")
.replace(/\s+/g, " ").trim()` -/

mutual
/-- `replace(/\\\s*\n\s*/g, " ")`: the pattern matches at a backslash
whose following whitespace run contains a newline, and then consumes the
backslash and the whole run (the greedy trailing `\s*`); the scan resumes
after the match. -/
def replaceContinuations : List Char → List Char
  | [] => []
  | '\\' :: rest => continuationRun [] rest
  | c :: rest => c :: replaceContinuations rest

/-- After a backslash: accumulate the whitespace run until a newline is
found (match) or the run ends (no match; emit everything unchanged and
resume scanning). -/
def continuationRun (acc : List Char) : List Char → List Char
  | [] => '\\' :: acc.reverse
  | c :: rest =>
      if c = '\n' then continuationTail rest
      else if jsIsWs c then continuationRun (c :: acc) rest
      else if c = '\\' then '\\' :: (acc.reverse ++ continuationRun [] rest)
      else '\\' :: (acc.reverse ++ (c :: replaceContinuations rest))

/-- A newline was found: consume the rest of the whitespace run, emit the
single replacement space, resume scanning. -/
def continuationTail : List Char → List Char
  | [] => [' ']
  | c :: rest =>
      if jsIsWs c then continuationTail rest
      else if c = '\\' then ' ' :: continuationRun [] rest
      else ' ' :: (c :: replaceContinuations rest)
end

/-- `replace(/\\\n/g, " ")`. -/
def replaceBackslashNewline : List Char → List Char
  | '\\' :: '\n' :: rest => ' ' :: replaceBackslashNewline rest
  | c :: rest => c :: replaceBackslashNewline rest
  | [] => []

/-- `replace(/\s+/g, " ")`: every maximal whitespace run becomes one
space. -/
def collapseWs : List Char → List Char
  | [] => []
  | c :: rest =>
      if jsIsWs c then
        match rest with
        | d :: _ => if jsIsWs d then collapseWs rest else ' ' :: collapseWs rest
        | [] => [' ']
      else c :: collapseWs rest

/-- The full normalization of `parseCurlCommand`. -/
def normalizeCurlL (cs : List Char) : List Char :=
  jsTrimL (collapseWs (replaceBackslashNewline (replaceContinuations cs)))

/-- The authorization extraction loop of `parseCurlCommand` (result `""`
when no pattern matches, as in the source's accumulator variable). -/
def extractAuth (normalized : List Char) : String :=
  match tryPatterns authPatterns normalized with
  | some cap => "Bearer " ++ String.mk (jsTrimL cap)
  | none => ""

/-- The cookie extraction loop of `parseCurlCommand`. -/
def extractCookie (normalized : List Char) : String :=
  match tryPatterns cookiePatterns normalized with
  | some cap => String.mk (jsTrimL cap)
  | none => ""

/-- The error message thrown by `parseCurlCommand`. -/
def curlErrorMsg (missing : List String) : String :=
  "无法提取 " ++ String.intercalate " 和 " missing ++ " 信息。\n\n" ++
  "提示：\n" ++
  "1. 确保 curl 命令包含 -H 'authorization: Bearer xxx'\n" ++
  "2. 确保包含 -b 'cookie...' 或 -H 'cookie: xxx'\n" ++
  "3. 如果粘贴有问题，请选择\"手动输入\"方式"

/-- `parseCurlCommand` of src/unnamed/part_000: normalize, extract the
bearer token and the cookie by the ordered pattern lists, and fail naming
the missing fields when either is empty.  The error carries the `missing`
array the source builds and the message it throws. -/
def parseCurlCommand (curlCommand : String) :
    Except (List String × String) AuthInfo :=
  let normalized := normalizeCurlL curlCommand.toList
  let authorization := extractAuth normalized
  let cookie := extractCookie normalized
  if authorization = "" || cookie = "" then
    let missing := (if authorization = "" then ["Authorization"] else []) ++
      (if cookie = "" then ["Cookie"] else [])
    .error (missing, curlErrorMsg missing)
  else
    .ok ⟨authorization, cookie⟩



/-! Generic facts about the scanners, used to settle the extraction
claims. -/

/-- Helper lemmas about `takeWhile`/`dropWhile` over an append whose left
part satisfies the predicate everywhere. -/
theorem takeWhile_append_all {p : Char → Bool} {xs : List Char} (ys : List Char)
    (h : ∀ x ∈ xs, p x = true) :
    (xs ++ ys).takeWhile p = xs ++ ys.takeWhile p := by
  induction xs with
  | nil => rfl
  | cons x xs ih =>
    have hx : p x = true := h x (by simp)
    simp only [List.cons_append, List.takeWhile_cons, hx, if_true]
    rw [ih (fun c hc => h c (by simp [hc]))]

theorem dropWhile_append_all {p : Char → Bool} {xs : List Char} (ys : List Char)
    (h : ∀ x ∈ xs, p x = true) :
    (xs ++ ys).dropWhile p = ys.dropWhile p := by
  induction xs with
  | nil => rfl
  | cons x xs ih =>
    have hx : p x = true := h x (by simp)
    simp only [List.cons_append, List.dropWhile_cons, hx, if_true]
    exact ih (fun c hc => h c (by simp [hc]))

/-- A definitive-failure check of a token list against a PREFIX of the
input: when it returns `true`, the tokens cannot match any input extending
that prefix. -/
def toksFailOn : List RegTok → List Char → Bool
  | [], _ => false
  | _ :: _, [] => false
  | .lit c :: ts, x :: cs => if x = c then toksFailOn ts cs else true
  | .litCI c :: ts, x :: cs => if x.toLower = c then toksFailOn ts cs else true
  | .ws1 :: ts, x :: cs =>
      if jsIsWs x then
        (match (x :: cs).dropWhile jsIsWs with
         | [] => false
         | r :: rs => toksFailOn ts (r :: rs))
      else true
  | .ws0 :: ts, x :: cs =>
      (match (x :: cs).dropWhile jsIsWs with
       | [] => false
       | r :: rs => toksFailOn ts (r :: rs))

/-! `rfl` unfolding equations for `toksFailOn` and `matchToks` (spelled
out to avoid the generated equation lemmas). -/

theorem toksFailOn_nil (x : List Char) : toksFailOn [] x = false := rfl

theorem toksFailOn_cons_nil (t : RegTok) (ts : List RegTok) :
    toksFailOn (t :: ts) [] = false := by cases t <;> rfl

theorem toksFailOn_lit (c : Char) (ts : List RegTok) (a : Char) (x : List Char) :
    toksFailOn (.lit c :: ts) (a :: x) =
      if a = c then toksFailOn ts x else true := rfl

theorem toksFailOn_litCI (c : Char) (ts : List RegTok) (a : Char) (x : List Char) :
    toksFailOn (.litCI c :: ts) (a :: x) =
      if a.toLower = c then toksFailOn ts x else true := rfl

theorem toksFailOn_ws1 (ts : List RegTok) (a : Char) (x : List Char) :
    toksFailOn (.ws1 :: ts) (a :: x) =
      if jsIsWs a then
        (match (a :: x).dropWhile jsIsWs with
         | [] => false
         | r :: rs => toksFailOn ts (r :: rs))
      else true := rfl

theorem toksFailOn_ws0 (ts : List RegTok) (a : Char) (x : List Char) :
    toksFailOn (.ws0 :: ts) (a :: x) =
      (match (a :: x).dropWhile jsIsWs with
       | [] => false
       | r :: rs => toksFailOn ts (r :: rs)) := rfl

theorem matchToks_nil (cs : List Char) : matchToks [] cs = some cs := rfl

theorem matchToks_lit (c : Char) (ts : List RegTok) (a : Char) (x : List Char) :
    matchToks (.lit c :: ts) (a :: x) =
      if a = c then matchToks ts x else none := rfl

theorem matchToks_litCI (c : Char) (ts : List RegTok) (a : Char) (x : List Char) :
    matchToks (.litCI c :: ts) (a :: x) =
      if a.toLower = c then matchToks ts x else none := rfl

theorem matchToks_ws1 (ts : List RegTok) (cs : List Char) :
    matchToks (.ws1 :: ts) cs =
      (if (cs.takeWhile jsIsWs).isEmpty then none
       else matchToks ts (cs.dropWhile jsIsWs)) := by
  cases cs <;> rfl

theorem matchToks_ws0 (ts : List RegTok) (cs : List Char) :
    matchToks (.ws0 :: ts) cs = matchToks ts (cs.dropWhile jsIsWs) := by
  cases cs <;> rfl

/-- If the whitespace run of a prefix ends inside the prefix, it is the
whitespace run of any extension. -/
theorem dropWhile_ws_extend {x : List Char} {r : Char} {rs : List Char}
    (y : List Char) (h : x.dropWhile jsIsWs = r :: rs) :
    (x ++ y).dropWhile jsIsWs = r :: (rs ++ y) := by
  induction x with
  | nil => simp at h
  | cons a x ih =>
    by_cases ha : jsIsWs a
    · rw [List.dropWhile_cons_of_pos ha] at h
      rw [List.cons_append, List.dropWhile_cons_of_pos ha]
      exact ih h
    · rw [List.dropWhile_cons_of_neg ha] at h
      rw [List.cons.injEq] at h
      obtain ⟨rfl, rfl⟩ := h
      rw [List.cons_append, List.dropWhile_cons_of_neg ha]

/-- Soundness of `toksFailOn`: a definitive prefix failure rules out a
match on every extension. -/
theorem matchToks_fail {toks : List RegTok} {x : List Char}
    (h : toksFailOn toks x = true) (y : List Char) :
    matchToks toks (x ++ y) = none := by
  induction toks generalizing x with
  | nil => rw [toksFailOn_nil] at h; exact Bool.noConfusion h
  | cons t ts ih =>
    cases x with
    | nil => rw [toksFailOn_cons_nil] at h; exact Bool.noConfusion h
    | cons a x' =>
      cases t with
      | lit c =>
          by_cases hac : a = c
          · rw [toksFailOn_lit, if_pos hac] at h
            rw [List.cons_append, matchToks_lit, if_pos hac]
            exact ih h
          · rw [List.cons_append, matchToks_lit, if_neg hac]
      | litCI c =>
          by_cases hac : a.toLower = c
          · rw [toksFailOn_litCI, if_pos hac] at h
            rw [List.cons_append, matchToks_litCI, if_pos hac]
            exact ih h
          · rw [List.cons_append, matchToks_litCI, if_neg hac]
      | ws1 =>
          by_cases ha : jsIsWs a
          · rw [toksFailOn_ws1, if_pos ha] at h
            rcases hd : (a :: x').dropWhile jsIsWs with _ | ⟨r, rs⟩
            · rw [hd] at h; exact Bool.noConfusion h
            · rw [hd] at h
              have hext := dropWhile_ws_extend y hd
              rw [List.cons_append] at hext
              rw [List.cons_append, matchToks_ws1]
              rw [if_neg (by simp [List.takeWhile_cons_of_pos ha]), hext]
              rw [show r :: (rs ++ y) = (r :: rs) ++ y from rfl]
              exact ih h
          · rw [toksFailOn_ws1, if_neg ha] at h
            rw [List.cons_append, matchToks_ws1]
            rw [if_pos (by simp [List.takeWhile_cons_of_neg ha])]
      | ws0 =>
          rw [toksFailOn_ws0] at h
          rcases hd : (a :: x').dropWhile jsIsWs with _ | ⟨r, rs⟩
          · rw [hd] at h; exact Bool.noConfusion h
          · rw [hd] at h
            have hext := dropWhile_ws_extend y hd
            rw [List.cons_append] at hext
            rw [List.cons_append, matchToks_ws0, hext]
            rw [show r :: (rs ++ y) = (r :: rs) ++ y from rfl]
            exact ih h

/-- A definitive prefix failure rules out the full pattern. -/
theorem matchPatAt_fail {toks : List RegTok} {q : Char} {x : List Char}
    (h : toksFailOn toks x = true) (y : List Char) :
    matchPatAt toks q (x ++ y) = none := by
  rw [matchPatAt, matchToks_fail h y]
  rfl

/-- A failing head position steps the scan forward. -/
theorem scanFirst_cons_fail {toks : List RegTok} {q : Char} {c : Char}
    {cs : List Char} (h : matchPatAt toks q (c :: cs) = none) :
    scanFirst toks q (c :: cs) = scanFirst toks q cs := by
  rw [show scanFirst toks q (c :: cs) =
    (match matchPatAt toks q (c :: cs) with
     | some cap => some cap
     | none => scanFirst toks q cs) from rfl, h]

/-- A definitive prefix failure at the head position steps the scan past
one character. -/
theorem scanFirst_step {toks : List RegTok} {q : Char} {c : Char}
    {x y : List Char} (h : toksFailOn toks (c :: x) = true) :
    scanFirst toks q ((c :: x) ++ y) = scanFirst toks q (x ++ y) :=
  scanFirst_cons_fail (matchPatAt_fail h y)

/-- A dash-free segment contributes no match position for a pattern that
starts with a literal dash. -/
theorem scanFirst_skip {ts : List RegTok} {q : Char} {seg : List Char}
    (rest : List Char) (h : ∀ c ∈ seg, c ≠ '-') :
    scanFirst (.lit '-' :: ts) q (seg ++ rest) =
      scanFirst (.lit '-' :: ts) q rest := by
  induction seg with
  | nil => rfl
  | cons c seg ih =>
    have hc : c ≠ '-' := h c (by simp)
    rw [List.cons_append,
      scanFirst_cons_fail (by rw [matchPatAt, matchToks_lit, if_neg hc]; rfl)]
    exact ih (fun d hd => h d (by simp [hd]))

/-- A successful head-position match resolves the scan. -/
theorem scanFirst_hit {toks : List RegTok} {q : Char} {c : Char}
    {cs cap : List Char} (h : matchPatAt toks q (c :: cs) = some cap) :
    scanFirst toks q (c :: cs) = some cap := by
  rw [show scanFirst toks q (c :: cs) =
    (match matchPatAt toks q (c :: cs) with
     | some cap => some cap
     | none => scanFirst toks q cs) from rfl, h]

/-- The capture `([^q]+)q` on a clean value followed by the closing
quote. -/
theorem capMatch_clean {q : Char} {xs : List Char} (ys : List Char)
    (h : ∀ c ∈ xs, c ≠ q) (hne : xs ≠ []) :
    capMatch q (xs ++ q :: ys) = some xs := by
  have hall : ∀ c ∈ xs, (fun c => decide (c ≠ q)) c = true := by
    intro c hc; simpa using h c hc
  rw [capMatch]
  rw [takeWhile_append_all _ hall, dropWhile_append_all _ hall]
  rw [List.takeWhile_cons_of_neg (by simp), List.dropWhile_cons_of_neg (by simp)]
  simp [hne]


end MyCli

namespace MyCli

/-! ## The well-formed request-description family of claim C1

A description is rendered from its parts: a URL, a bearer-token header
flag in one of two spellings and two quote styles, and a cookie in one of
four forms (`-b`, `--cookie`, or a cookie-naming header flag in two
spellings) and two quote styles, with an optional backslash line
continuation before the token flag and before the cookie flag. -/

/-- Quote style of a flag argument. -/
inductive Quote where
  | sq | dq
  deriving Repr, DecidableEq

/-- The quote character. -/
def Quote.ch : Quote → Char
  | .sq => '\''
  | .dq => '"'

/-- Spelling of the header flag. -/
inductive AuthFlag where
  | short | long
  deriving Repr, DecidableEq

/-- Form of the cookie argument. -/
inductive CookieForm where
  | flagB | flagCookie | headerShort | headerLong
  deriving Repr, DecidableEq

/-- The authorization part: `-H <q>authorization: Bearer <token><q>` or the
`--header` spelling, followed by the continuation `rest`. -/
def renderAuthTo (af : AuthFlag) (q : Char) (token rest : List Char) : List Char :=
  match af with
  | .short => '-' :: 'H' :: ' ' :: q :: ("authorization: Bearer ".toList ++ (token ++ (q :: rest)))
  | .long => "--header ".toList ++ (q :: ("authorization: Bearer ".toList ++ (token ++ (q :: rest))))

/-- The cookie part in its four forms, followed by the continuation
`rest`. -/
def renderCookieTo (cf : CookieForm) (q : Char) (cookie rest : List Char) : List Char :=
  match cf with
  | .flagB => '-' :: 'b' :: ' ' :: q :: (cookie ++ (q :: rest))
  | .flagCookie => "--cookie ".toList ++ (q :: (cookie ++ (q :: rest)))
  | .headerShort => '-' :: 'H' :: ' ' :: q :: ("cookie: ".toList ++ (cookie ++ (q :: rest)))
  | .headerLong => "--header ".toList ++ (q :: ("cookie: ".toList ++ (cookie ++ (q :: rest))))

/-- A separator: a single space, or a backslash line continuation. -/
def sepStr (wrapped : Bool) : List Char :=
  if wrapped then ' ' :: '\\' :: '\n' :: ' ' :: [] else [' ']

/-- A full well-formed request description. -/
def renderCurl (url : List Char) (af : AuthFlag) (aq : Quote) (token : List Char)
    (cf : CookieForm) (cq : Quote) (cookie : List Char) (w1 w2 : Bool) : List Char :=
  "curl ".toList ++
    (url ++ (sepStr w1 ++
      renderAuthTo af aq.ch token (sepStr w2 ++
        renderCookieTo cf cq.ch cookie [])))

/-- Characters allowed in the abstract parts of the family: no whitespace,
no quotes, no backslash, no dash. -/
def plainChar (c : Char) : Bool :=
  !(jsIsWs c) && !(c = '\'') && !(c = '"') && !(c = '\\') && !(c = '-')

theorem plainChar_ws {c : Char} (h : plainChar c = true) : jsIsWs c = false := by
  simp [plainChar] at h; tauto

theorem plainChar_sq {c : Char} (h : plainChar c = true) : c ≠ '\'' := by
  simp [plainChar] at h; tauto

theorem plainChar_dq {c : Char} (h : plainChar c = true) : c ≠ '"' := by
  simp [plainChar] at h; tauto

theorem plainChar_bs {c : Char} (h : plainChar c = true) : c ≠ '\\' := by
  simp [plainChar] at h; tauto

theorem plainChar_dash {c : Char} (h : plainChar c = true) : c ≠ '-' := by
  simp [plainChar] at h; tauto

theorem plain_quote {q : Quote} {cs : List Char}
    (h : ∀ c ∈ cs, plainChar c = true) : ∀ c ∈ cs, c ≠ q.ch := by
  intro c hc
  cases q
  · exact plainChar_sq (h c hc)
  · exact plainChar_dq (h c hc)

theorem plain_nodash {cs : List Char}
    (h : ∀ c ∈ cs, plainChar c = true) : ∀ c ∈ cs, c ≠ '-' :=
  fun c hc => plainChar_dash (h c hc)

/-! Positive match lemmas: the pattern of each form captures exactly the
rendered value at the head of its part. -/

/-- The token lists of the four authorization patterns, by form. -/
def authToksOf (af : AuthFlag) (aq : Quote) : List RegTok :=
  ciTokens (match af with | .short => "-H" | .long => "--header") ++
    [.ws1, .lit aq.ch] ++ ciTokens "authorization:" ++ [.ws0] ++
    ciTokens "Bearer" ++ [.ws1]

theorem authPatterns_eq :
    authPatterns = [(authToksOf .short .sq, '\''), (authToksOf .short .dq, '"'),
      (authToksOf .long .sq, '\''), (authToksOf .long .dq, '"')] := rfl

/-- The token lists of the eight cookie patterns, by form. -/
def cookieToksOf (cf : CookieForm) (cq : Quote) : List RegTok :=
  match cf with
  | .flagB => csTokens "-b" ++ [.ws1, .lit cq.ch]
  | .flagCookie => csTokens "--cookie" ++ [.ws1, .lit cq.ch]
  | .headerShort => ciTokens "-H" ++ [.ws1, .lit cq.ch] ++ ciTokens "cookie:" ++ [.ws0]
  | .headerLong => ciTokens "--header" ++ [.ws1, .lit cq.ch] ++ ciTokens "cookie:" ++ [.ws0]

theorem cookiePatterns_eq :
    cookiePatterns = [(cookieToksOf .flagB .sq, '\''), (cookieToksOf .flagB .dq, '"'),
      (cookieToksOf .flagCookie .sq, '\''), (cookieToksOf .flagCookie .dq, '"'),
      (cookieToksOf .headerShort .sq, '\''), (cookieToksOf .headerShort .dq, '"'),
      (cookieToksOf .headerLong .sq, '\''), (cookieToksOf .headerLong .dq, '"')] := rfl

/-- The authorization pattern of a form matches its rendered part and
captures exactly the token. -/
theorem matchAuth (af : AuthFlag) (aq : Quote) (token rest : List Char)
    (ht : ∀ c ∈ token, plainChar c = true) (ht0 : token ≠ []) :
    matchPatAt (authToksOf af aq) aq.ch (renderAuthTo af aq.ch token rest) =
      some token := by
  obtain ⟨t, tk, rfl⟩ : ∃ t tk, token = t :: tk := by
    cases token with
    | nil => exact absurd rfl ht0
    | cons t tk => exact ⟨t, tk, rfl⟩
  have htws : jsIsWs t = false := plainChar_ws (ht t (by simp))
  have hcap : capMatch aq.ch ((t :: tk) ++ (aq.ch :: rest)) = some (t :: tk) :=
    capMatch_clean rest (plain_quote ht) (by simp)
  cases af <;> cases aq
  all_goals {
    show (matchToks [RegTok.ws1] (' ' :: ((t :: tk) ++ (Quote.ch _ :: rest)))).bind
      (capMatch (Quote.ch _)) = some (t :: tk)
    rw [matchToks_ws1,
      if_neg (by simp [List.takeWhile_cons_of_pos (show jsIsWs ' ' = true by decide)]),
      List.dropWhile_cons_of_pos (show jsIsWs ' ' = true by decide),
      List.cons_append,
      List.dropWhile_cons_of_neg (show ¬(jsIsWs t = true) by simp [htws]),
      ← List.cons_append, matchToks_nil]
    exact hcap
  }

/-- The cookie pattern of a form matches its rendered part and captures
exactly the cookie value. -/
theorem matchCookie (cf : CookieForm) (cq : Quote) (cookie rest : List Char)
    (hc : ∀ c ∈ cookie, plainChar c = true) (hc0 : cookie ≠ []) :
    matchPatAt (cookieToksOf cf cq) cq.ch (renderCookieTo cf cq.ch cookie rest) =
      some cookie := by
  obtain ⟨t, tk, rfl⟩ : ∃ t tk, cookie = t :: tk := by
    cases cookie with
    | nil => exact absurd rfl hc0
    | cons t tk => exact ⟨t, tk, rfl⟩
  have htws : jsIsWs t = false := plainChar_ws (hc t (by simp))
  have hcap : capMatch cq.ch ((t :: tk) ++ (cq.ch :: rest)) = some (t :: tk) :=
    capMatch_clean rest (plain_quote hc) (by simp)
  cases cf <;> cases cq
  case flagB.sq | flagB.dq | flagCookie.sq | flagCookie.dq =>
    exact hcap
  all_goals {
    show (matchToks [RegTok.ws0] (' ' :: ((t :: tk) ++ (Quote.ch _ :: rest)))).bind
      (capMatch (Quote.ch _)) = some (t :: tk)
    rw [matchToks_ws0,
      List.dropWhile_cons_of_pos (show jsIsWs ' ' = true by decide),
      List.cons_append,
      List.dropWhile_cons_of_neg (show ¬(jsIsWs t = true) by simp [htws]),
      ← List.cons_append, matchToks_nil]
    exact hcap
  }

end MyCli

namespace MyCli

/-! Segment-skip lemmas: definitive-failure conditions, decided on the
concrete skeleton prefix of each part, let a non-matching pattern's scan
pass over a whole rendered part. -/

/-- Definitive failure of a pattern on the concrete prefix(es) of an
authorization part (one condition per dash position of the part). -/
def authFormFail (P : List RegTok) (af : AuthFlag) (aq : Quote) : Bool :=
  match af with
  | .short => toksFailOn P ('-' :: 'H' :: ' ' :: aq.ch :: "authorization: Bearer ".toList)
  | .long =>
      toksFailOn P ('-' :: '-' :: 'h' :: 'e' :: 'a' :: 'd' :: 'e' :: 'r' :: ' ' :: aq.ch :: "authorization: Bearer ".toList) &&
      toksFailOn P ('-' :: 'h' :: 'e' :: 'a' :: 'd' :: 'e' :: 'r' :: ' ' :: aq.ch :: "authorization: Bearer ".toList)

/-- Definitive failure of a pattern on the concrete prefix(es) of a cookie
part. -/
def cookieFormFail (P : List RegTok) (cf : CookieForm) (cq : Quote) : Bool :=
  match cf with
  | .flagB => toksFailOn P ('-' :: 'b' :: ' ' :: cq.ch :: [])
  | .flagCookie =>
      toksFailOn P ('-' :: '-' :: 'c' :: 'o' :: 'o' :: 'k' :: 'i' :: 'e' :: ' ' :: cq.ch :: []) &&
      toksFailOn P ('-' :: 'c' :: 'o' :: 'o' :: 'k' :: 'i' :: 'e' :: ' ' :: cq.ch :: [])
  | .headerShort => toksFailOn P ('-' :: 'H' :: ' ' :: cq.ch :: "cookie: ".toList)
  | .headerLong =>
      toksFailOn P ('-' :: '-' :: 'h' :: 'e' :: 'a' :: 'd' :: 'e' :: 'r' :: ' ' :: cq.ch :: "cookie: ".toList) &&
      toksFailOn P ('-' :: 'h' :: 'e' :: 'a' :: 'd' :: 'e' :: 'r' :: ' ' :: cq.ch :: "cookie: ".toList)

/-- A pattern that definitively fails on an authorization part's concrete
prefixes scans past the whole part. -/
theorem skip_authSeg {ts : List RegTok} {q' : Char} (af : AuthFlag) (aq : Quote)
    (token rest : List Char) (htok : ∀ c ∈ token, c ≠ '-')
    (hfail : authFormFail (.lit '-' :: ts) af aq = true) :
    scanFirst (.lit '-' :: ts) q' (renderAuthTo af aq.ch token rest) =
      scanFirst (.lit '-' :: ts) q' rest := by
  have hq : aq.ch ≠ '-' := by cases aq <;> decide
  have hqskip : ∀ c ∈ [aq.ch], c ≠ '-' := by
    intro c hc
    simp only [List.mem_singleton] at hc
    subst hc; exact hq
  cases af
  · rw [show renderAuthTo .short aq.ch token rest
        = ('-' :: ('H' :: ' ' :: aq.ch :: "authorization: Bearer ".toList)) ++
          (token ++ (aq.ch :: rest)) from rfl]
    rw [scanFirst_step hfail]
    rw [scanFirst_skip _ (by
      intro c hc
      simp only [List.mem_cons] at hc
      rcases hc with rfl | rfl | rfl | hc
      · decide
      · decide
      · exact hq
      · exact (show ∀ c ∈ "authorization: Bearer ".toList, c ≠ '-' by decide) c hc)]
    rw [scanFirst_skip _ htok]
    rw [show aq.ch :: rest = [aq.ch] ++ rest from rfl, scanFirst_skip _ hqskip]
  · simp only [authFormFail, Bool.and_eq_true] at hfail
    obtain ⟨hf1, hf2⟩ := hfail
    rw [show renderAuthTo .long aq.ch token rest
        = ('-' :: ('-' :: 'h' :: 'e' :: 'a' :: 'd' :: 'e' :: 'r' :: ' ' :: aq.ch :: "authorization: Bearer ".toList)) ++
          (token ++ (aq.ch :: rest)) from rfl]
    rw [scanFirst_step hf1]
    rw [show ('-' :: 'h' :: 'e' :: 'a' :: 'd' :: 'e' :: 'r' :: ' ' :: aq.ch :: "authorization: Bearer ".toList) ++
          (token ++ (aq.ch :: rest))
        = ('-' :: ('h' :: 'e' :: 'a' :: 'd' :: 'e' :: 'r' :: ' ' :: aq.ch :: "authorization: Bearer ".toList)) ++
          (token ++ (aq.ch :: rest)) from rfl]
    rw [scanFirst_step hf2]
    rw [scanFirst_skip _ (by
      intro c hc
      simp only [List.mem_cons] at hc
      rcases hc with rfl | rfl | rfl | rfl | rfl | rfl | rfl | rfl | hc
      · decide
      · decide
      · decide
      · decide
      · decide
      · decide
      · decide
      · exact hq
      · exact (show ∀ c ∈ "authorization: Bearer ".toList, c ≠ '-' by decide) c hc)]
    rw [scanFirst_skip _ htok]
    rw [show aq.ch :: rest = [aq.ch] ++ rest from rfl, scanFirst_skip _ hqskip]

/-- A pattern that definitively fails on a cookie part's concrete prefixes
scans past the whole part. -/
theorem skip_cookieSeg {ts : List RegTok} {q' : Char} (cf : CookieForm) (cq : Quote)
    (cookie rest : List Char) (hck : ∀ c ∈ cookie, c ≠ '-')
    (hfail : cookieFormFail (.lit '-' :: ts) cf cq = true) :
    scanFirst (.lit '-' :: ts) q' (renderCookieTo cf cq.ch cookie rest) =
      scanFirst (.lit '-' :: ts) q' rest := by
  have hq : cq.ch ≠ '-' := by cases cq <;> decide
  have hqskip : ∀ c ∈ [cq.ch], c ≠ '-' := by
    intro c hc
    simp only [List.mem_singleton] at hc
    subst hc; exact hq
  cases cf
  · rw [show renderCookieTo .flagB cq.ch cookie rest
        = ('-' :: ('b' :: ' ' :: cq.ch :: [])) ++ (cookie ++ (cq.ch :: rest)) from by
      simp [renderCookieTo]]
    rw [scanFirst_step hfail]
    rw [scanFirst_skip _ (by
      intro c hc
      simp only [List.mem_cons] at hc
      rcases hc with rfl | rfl | rfl | hc
      · decide
      · decide
      · exact hq
      · cases hc)]
    rw [scanFirst_skip _ hck]
    rw [show cq.ch :: rest = [cq.ch] ++ rest from rfl, scanFirst_skip _ hqskip]
  · simp only [cookieFormFail, Bool.and_eq_true] at hfail
    obtain ⟨hf1, hf2⟩ := hfail
    rw [show renderCookieTo .flagCookie cq.ch cookie rest
        = ('-' :: ('-' :: 'c' :: 'o' :: 'o' :: 'k' :: 'i' :: 'e' :: ' ' :: cq.ch :: [])) ++
          (cookie ++ (cq.ch :: rest)) from by simp [renderCookieTo]]
    rw [scanFirst_step hf1]
    rw [show ('-' :: 'c' :: 'o' :: 'o' :: 'k' :: 'i' :: 'e' :: ' ' :: cq.ch :: []) ++
          (cookie ++ (cq.ch :: rest))
        = ('-' :: ('c' :: 'o' :: 'o' :: 'k' :: 'i' :: 'e' :: ' ' :: cq.ch :: [])) ++
          (cookie ++ (cq.ch :: rest)) from rfl]
    rw [scanFirst_step hf2]
    rw [scanFirst_skip _ (by
      intro c hc
      simp only [List.mem_cons] at hc
      rcases hc with rfl | rfl | rfl | rfl | rfl | rfl | rfl | rfl | hc
      · decide
      · decide
      · decide
      · decide
      · decide
      · decide
      · decide
      · exact hq
      · cases hc)]
    rw [scanFirst_skip _ hck]
    rw [show cq.ch :: rest = [cq.ch] ++ rest from rfl, scanFirst_skip _ hqskip]
  · rw [show renderCookieTo .headerShort cq.ch cookie rest
        = ('-' :: ('H' :: ' ' :: cq.ch :: "cookie: ".toList)) ++
          (cookie ++ (cq.ch :: rest)) from rfl]
    rw [scanFirst_step hfail]
    rw [scanFirst_skip _ (by
      intro c hc
      simp only [List.mem_cons] at hc
      rcases hc with rfl | rfl | rfl | hc
      · decide
      · decide
      · exact hq
      · exact (show ∀ c ∈ "cookie: ".toList, c ≠ '-' by decide) c hc)]
    rw [scanFirst_skip _ hck]
    rw [show cq.ch :: rest = [cq.ch] ++ rest from rfl, scanFirst_skip _ hqskip]
  · simp only [cookieFormFail, Bool.and_eq_true] at hfail
    obtain ⟨hf1, hf2⟩ := hfail
    rw [show renderCookieTo .headerLong cq.ch cookie rest
        = ('-' :: ('-' :: 'h' :: 'e' :: 'a' :: 'd' :: 'e' :: 'r' :: ' ' :: cq.ch :: "cookie: ".toList)) ++
          (cookie ++ (cq.ch :: rest)) from rfl]
    rw [scanFirst_step hf1]
    rw [show ('-' :: 'h' :: 'e' :: 'a' :: 'd' :: 'e' :: 'r' :: ' ' :: cq.ch :: "cookie: ".toList) ++
          (cookie ++ (cq.ch :: rest))
        = ('-' :: ('h' :: 'e' :: 'a' :: 'd' :: 'e' :: 'r' :: ' ' :: cq.ch :: "cookie: ".toList)) ++
          (cookie ++ (cq.ch :: rest)) from rfl]
    rw [scanFirst_step hf2]
    rw [scanFirst_skip _ (by
      intro c hc
      simp only [List.mem_cons] at hc
      rcases hc with rfl | rfl | rfl | rfl | rfl | rfl | rfl | rfl | hc
      · decide
      · decide
      · decide
      · decide
      · decide
      · decide
      · decide
      · exact hq
      · exact (show ∀ c ∈ "cookie: ".toList, c ≠ '-' by decide) c hc)]
    rw [scanFirst_skip _ hck]
    rw [show cq.ch :: rest = [cq.ch] ++ rest from rfl, scanFirst_skip _ hqskip]

end MyCli

namespace MyCli

/-! Assembling the scans over a whole (flat) rendered description. -/

theorem matchToks_nil_cases (toks : List RegTok) :
    matchToks toks [] = none ∨ matchToks toks [] = some [] := by
  induction toks with
  | nil => exact Or.inr rfl
  | cons t ts ih => cases t with
    | lit c => exact Or.inl rfl
    | litCI c => exact Or.inl rfl
    | ws1 => exact Or.inl rfl
    | ws0 => exact ih

theorem matchPatAt_nil (toks : List RegTok) (q : Char) :
    matchPatAt toks q [] = none := by
  rw [matchPatAt]
  rcases matchToks_nil_cases toks with h | h <;> rw [h] <;> rfl

/-- A successful match at any head resolves the scan. -/
theorem scanFirst_hit' {toks : List RegTok} {q : Char} {cs cap : List Char}
    (h : matchPatAt toks q cs = some cap) : scanFirst toks q cs = some cap := by
  cases cs with
  | nil => rw [matchPatAt_nil] at h; exact Option.noConfusion h
  | cons c cs' =>
      rw [show scanFirst toks q (c :: cs') =
        (match matchPatAt toks q (c :: cs') with
         | some cap => some cap
         | none => scanFirst toks q cs') from rfl, h]

theorem tryPatterns_cons_none {t : List RegTok} {q : Char}
    {ps : List (List RegTok × Char)} {cs : List Char}
    (h : scanFirst t q cs = none) :
    tryPatterns ((t, q) :: ps) cs = tryPatterns ps cs := by
  rw [show tryPatterns ((t, q) :: ps) cs =
    (match scanFirst t q cs with
     | some cap => some cap
     | none => tryPatterns ps cs) from rfl, h]

theorem tryPatterns_cons_some {t : List RegTok} {q : Char}
    {ps : List (List RegTok × Char)} {cs cap : List Char}
    (h : scanFirst t q cs = some cap) :
    tryPatterns ((t, q) :: ps) cs = some cap := by
  rw [show tryPatterns ((t, q) :: ps) cs =
    (match scanFirst t q cs with
     | some cap => some cap
     | none => tryPatterns ps cs) from rfl, h]

/-- The tail of an authorization pattern after its leading dash. -/
def authTailOf (af : AuthFlag) (aq : Quote) : List RegTok :=
  (authToksOf af aq).tail

theorem authToksOf_eq (af : AuthFlag) (aq : Quote) :
    authToksOf af aq = .lit '-' :: authTailOf af aq := by
  cases af <;> cases aq <;> rfl

/-- The tail of a cookie pattern after its leading dash. -/
def cookieTailOf (cf : CookieForm) (cq : Quote) : List RegTok :=
  (cookieToksOf cf cq).tail

theorem cookieToksOf_eq (cf : CookieForm) (cq : Quote) :
    cookieToksOf cf cq = .lit '-' :: cookieTailOf cf cq := by
  cases cf <;> cases cq <;> rfl

/-- A pattern that definitively fails on both parts' prefixes finds no
match anywhere in a flat rendered description. -/
theorem scanFlat_none {ts : List RegTok} {q' : Char}
    (url token cookie : List Char) (af : AuthFlag) (aq : Quote)
    (cf : CookieForm) (cq : Quote)
    (hu : ∀ c ∈ url, c ≠ '-') (ht : ∀ c ∈ token, c ≠ '-')
    (hc : ∀ c ∈ cookie, c ≠ '-')
    (hfa : authFormFail (.lit '-' :: ts) af aq = true)
    (hfc : cookieFormFail (.lit '-' :: ts) cf cq = true) :
    scanFirst (.lit '-' :: ts) q'
      (renderCurl url af aq token cf cq cookie false false) = none := by
  rw [show renderCurl url af aq token cf cq cookie false false
      = "curl ".toList ++ (url ++ ([' '] ++ renderAuthTo af aq.ch token
          ([' '] ++ renderCookieTo cf cq.ch cookie []))) from rfl]
  rw [scanFirst_skip _ (by decide)]
  rw [scanFirst_skip _ hu]
  rw [scanFirst_skip _ (by decide)]
  rw [skip_authSeg af aq token _ ht hfa]
  rw [scanFirst_skip _ (by decide)]
  rw [skip_cookieSeg cf cq cookie _ hc hfc]
  rfl

/-- The authorization pattern of the description's own form scans to its
part and captures the token. -/
theorem scanFlat_authHit (url token cookie : List Char) (af : AuthFlag)
    (aq : Quote) (cf : CookieForm) (cq : Quote)
    (hu : ∀ c ∈ url, c ≠ '-')
    (ht : ∀ c ∈ token, plainChar c = true) (ht0 : token ≠ []) :
    scanFirst (.lit '-' :: authTailOf af aq) aq.ch
      (renderCurl url af aq token cf cq cookie false false) = some token := by
  rw [show renderCurl url af aq token cf cq cookie false false
      = "curl ".toList ++ (url ++ ([' '] ++ renderAuthTo af aq.ch token
          ([' '] ++ renderCookieTo cf cq.ch cookie []))) from rfl]
  rw [scanFirst_skip _ (by decide)]
  rw [scanFirst_skip _ hu]
  rw [scanFirst_skip _ (by decide)]
  have hm := matchAuth af aq token
    ([' '] ++ renderCookieTo cf cq.ch cookie []) ht ht0
  rw [authToksOf_eq] at hm
  exact scanFirst_hit' hm

/-- The cookie pattern of the description's own form scans past the
authorization part and captures the cookie value. -/
theorem scanFlat_cookieHit (url token cookie : List Char) (af : AuthFlag)
    (aq : Quote) (cf : CookieForm) (cq : Quote)
    (hu : ∀ c ∈ url, c ≠ '-') (ht : ∀ c ∈ token, c ≠ '-')
    (hc : ∀ c ∈ cookie, plainChar c = true) (hc0 : cookie ≠ [])
    (hfa : authFormFail (.lit '-' :: cookieTailOf cf cq) af aq = true) :
    scanFirst (.lit '-' :: cookieTailOf cf cq) cq.ch
      (renderCurl url af aq token cf cq cookie false false) = some cookie := by
  rw [show renderCurl url af aq token cf cq cookie false false
      = "curl ".toList ++ (url ++ ([' '] ++ renderAuthTo af aq.ch token
          ([' '] ++ renderCookieTo cf cq.ch cookie []))) from rfl]
  rw [scanFirst_skip _ (by decide)]
  rw [scanFirst_skip _ hu]
  rw [scanFirst_skip _ (by decide)]
  rw [skip_authSeg af aq token _ ht hfa]
  rw [scanFirst_skip _ (by decide)]
  have hm := matchCookie cf cq cookie [] hc hc0
  rw [cookieToksOf_eq] at hm
  exact scanFirst_hit' hm

/-- The ordered authorization pattern list extracts exactly the token from
every flat rendered description. -/
theorem tryAuth_flat (url token cookie : List Char) (af : AuthFlag)
    (aq : Quote) (cf : CookieForm) (cq : Quote)
    (hu : ∀ c ∈ url, plainChar c = true)
    (ht : ∀ c ∈ token, plainChar c = true) (ht0 : token ≠ [])
    (hc : ∀ c ∈ cookie, plainChar c = true) :
    tryPatterns authPatterns
      (renderCurl url af aq token cf cq cookie false false) = some token := by
  have hu' := plain_nodash hu
  have ht' := plain_nodash ht
  have hc' := plain_nodash hc
  rw [authPatterns_eq]
  cases af <;> cases aq
  case short.sq =>
    rw [authToksOf_eq]
    exact tryPatterns_cons_some
      (scanFlat_authHit url token cookie .short .sq cf cq hu' ht ht0)
  case short.dq =>
    rw [authToksOf_eq, authToksOf_eq]
    rw [tryPatterns_cons_none (scanFlat_none url token cookie .short .dq cf cq
      hu' ht' hc' (by decide) (by cases cf <;> cases cq <;> decide))]
    exact tryPatterns_cons_some
      (scanFlat_authHit url token cookie .short .dq cf cq hu' ht ht0)
  case long.sq =>
    rw [authToksOf_eq, authToksOf_eq, authToksOf_eq]
    rw [tryPatterns_cons_none (scanFlat_none url token cookie .long .sq cf cq
      hu' ht' hc' (by decide) (by cases cf <;> cases cq <;> decide))]
    rw [tryPatterns_cons_none (scanFlat_none url token cookie .long .sq cf cq
      hu' ht' hc' (by decide) (by cases cf <;> cases cq <;> decide))]
    exact tryPatterns_cons_some
      (scanFlat_authHit url token cookie .long .sq cf cq hu' ht ht0)
  case long.dq =>
    rw [authToksOf_eq, authToksOf_eq, authToksOf_eq, authToksOf_eq]
    rw [tryPatterns_cons_none (scanFlat_none url token cookie .long .dq cf cq
      hu' ht' hc' (by decide) (by cases cf <;> cases cq <;> decide))]
    rw [tryPatterns_cons_none (scanFlat_none url token cookie .long .dq cf cq
      hu' ht' hc' (by decide) (by cases cf <;> cases cq <;> decide))]
    rw [tryPatterns_cons_none (scanFlat_none url token cookie .long .dq cf cq
      hu' ht' hc' (by decide) (by cases cf <;> cases cq <;> decide))]
    exact tryPatterns_cons_some
      (scanFlat_authHit url token cookie .long .dq cf cq hu' ht ht0)

end MyCli

namespace MyCli

/-- The ordered cookie pattern list extracts exactly the cookie value from
every flat rendered description. -/
theorem tryCookie_flat (url token cookie : List Char) (af : AuthFlag)
    (aq : Quote) (cf : CookieForm) (cq : Quote)
    (hu : ∀ c ∈ url, plainChar c = true)
    (ht : ∀ c ∈ token, plainChar c = true)
    (hc : ∀ c ∈ cookie, plainChar c = true) (hc0 : cookie ≠ []) :
    tryPatterns cookiePatterns
      (renderCurl url af aq token cf cq cookie false false) = some cookie := by
  have hu' := plain_nodash hu
  have ht' := plain_nodash ht
  have hc' := plain_nodash hc
  rw [cookiePatterns_eq]
  rw [cookieToksOf_eq, cookieToksOf_eq, cookieToksOf_eq, cookieToksOf_eq,
    cookieToksOf_eq, cookieToksOf_eq, cookieToksOf_eq, cookieToksOf_eq]
  cases cf <;> cases cq
  case flagB.sq =>
    exact tryPatterns_cons_some
      (scanFlat_cookieHit url token cookie af aq .flagB .sq hu' ht' hc hc0
        (by cases af <;> cases aq <;> decide))
  case flagB.dq =>
    rw [tryPatterns_cons_none (scanFlat_none url token cookie af aq .flagB .dq
      hu' ht' hc' (by cases af <;> cases aq <;> decide) (by decide))]
    exact tryPatterns_cons_some
      (scanFlat_cookieHit url token cookie af aq .flagB .dq hu' ht' hc hc0
        (by cases af <;> cases aq <;> decide))
  case flagCookie.sq =>
    rw [tryPatterns_cons_none (scanFlat_none url token cookie af aq .flagCookie .sq
      hu' ht' hc' (by cases af <;> cases aq <;> decide) (by decide))]
    rw [tryPatterns_cons_none (scanFlat_none url token cookie af aq .flagCookie .sq
      hu' ht' hc' (by cases af <;> cases aq <;> decide) (by decide))]
    exact tryPatterns_cons_some
      (scanFlat_cookieHit url token cookie af aq .flagCookie .sq hu' ht' hc hc0
        (by cases af <;> cases aq <;> decide))
  case flagCookie.dq =>
    rw [tryPatterns_cons_none (scanFlat_none url token cookie af aq .flagCookie .dq
      hu' ht' hc' (by cases af <;> cases aq <;> decide) (by decide))]
    rw [tryPatterns_cons_none (scanFlat_none url token cookie af aq .flagCookie .dq
      hu' ht' hc' (by cases af <;> cases aq <;> decide) (by decide))]
    rw [tryPatterns_cons_none (scanFlat_none url token cookie af aq .flagCookie .dq
      hu' ht' hc' (by cases af <;> cases aq <;> decide) (by decide))]
    exact tryPatterns_cons_some
      (scanFlat_cookieHit url token cookie af aq .flagCookie .dq hu' ht' hc hc0
        (by cases af <;> cases aq <;> decide))
  case headerShort.sq =>
    rw [tryPatterns_cons_none (scanFlat_none url token cookie af aq .headerShort .sq
      hu' ht' hc' (by cases af <;> cases aq <;> decide) (by decide))]
    rw [tryPatterns_cons_none (scanFlat_none url token cookie af aq .headerShort .sq
      hu' ht' hc' (by cases af <;> cases aq <;> decide) (by decide))]
    rw [tryPatterns_cons_none (scanFlat_none url token cookie af aq .headerShort .sq
      hu' ht' hc' (by cases af <;> cases aq <;> decide) (by decide))]
    rw [tryPatterns_cons_none (scanFlat_none url token cookie af aq .headerShort .sq
      hu' ht' hc' (by cases af <;> cases aq <;> decide) (by decide))]
    exact tryPatterns_cons_some
      (scanFlat_cookieHit url token cookie af aq .headerShort .sq hu' ht' hc hc0
        (by cases af <;> cases aq <;> decide))
  case headerShort.dq =>
    rw [tryPatterns_cons_none (scanFlat_none url token cookie af aq .headerShort .dq
      hu' ht' hc' (by cases af <;> cases aq <;> decide) (by decide))]
    rw [tryPatterns_cons_none (scanFlat_none url token cookie af aq .headerShort .dq
      hu' ht' hc' (by cases af <;> cases aq <;> decide) (by decide))]
    rw [tryPatterns_cons_none (scanFlat_none url token cookie af aq .headerShort .dq
      hu' ht' hc' (by cases af <;> cases aq <;> decide) (by decide))]
    rw [tryPatterns_cons_none (scanFlat_none url token cookie af aq .headerShort .dq
      hu' ht' hc' (by cases af <;> cases aq <;> decide) (by decide))]
    rw [tryPatterns_cons_none (scanFlat_none url token cookie af aq .headerShort .dq
      hu' ht' hc' (by cases af <;> cases aq <;> decide) (by decide))]
    exact tryPatterns_cons_some
      (scanFlat_cookieHit url token cookie af aq .headerShort .dq hu' ht' hc hc0
        (by cases af <;> cases aq <;> decide))
  case headerLong.sq =>
    rw [tryPatterns_cons_none (scanFlat_none url token cookie af aq .headerLong .sq
      hu' ht' hc' (by cases af <;> cases aq <;> decide) (by decide))]
    rw [tryPatterns_cons_none (scanFlat_none url token cookie af aq .headerLong .sq
      hu' ht' hc' (by cases af <;> cases aq <;> decide) (by decide))]
    rw [tryPatterns_cons_none (scanFlat_none url token cookie af aq .headerLong .sq
      hu' ht' hc' (by cases af <;> cases aq <;> decide) (by decide))]
    rw [tryPatterns_cons_none (scanFlat_none url token cookie af aq .headerLong .sq
      hu' ht' hc' (by cases af <;> cases aq <;> decide) (by decide))]
    rw [tryPatterns_cons_none (scanFlat_none url token cookie af aq .headerLong .sq
      hu' ht' hc' (by cases af <;> cases aq <;> decide) (by decide))]
    rw [tryPatterns_cons_none (scanFlat_none url token cookie af aq .headerLong .sq
      hu' ht' hc' (by cases af <;> cases aq <;> decide) (by decide))]
    exact tryPatterns_cons_some
      (scanFlat_cookieHit url token cookie af aq .headerLong .sq hu' ht' hc hc0
        (by cases af <;> cases aq <;> decide))
  case headerLong.dq =>
    rw [tryPatterns_cons_none (scanFlat_none url token cookie af aq .headerLong .dq
      hu' ht' hc' (by cases af <;> cases aq <;> decide) (by decide))]
    rw [tryPatterns_cons_none (scanFlat_none url token cookie af aq .headerLong .dq
      hu' ht' hc' (by cases af <;> cases aq <;> decide) (by decide))]
    rw [tryPatterns_cons_none (scanFlat_none url token cookie af aq .headerLong .dq
      hu' ht' hc' (by cases af <;> cases aq <;> decide) (by decide))]
    rw [tryPatterns_cons_none (scanFlat_none url token cookie af aq .headerLong .dq
      hu' ht' hc' (by cases af <;> cases aq <;> decide) (by decide))]
    rw [tryPatterns_cons_none (scanFlat_none url token cookie af aq .headerLong .dq
      hu' ht' hc' (by cases af <;> cases aq <;> decide) (by decide))]
    rw [tryPatterns_cons_none (scanFlat_none url token cookie af aq .headerLong .dq
      hu' ht' hc' (by cases af <;> cases aq <;> decide) (by decide))]
    rw [tryPatterns_cons_none (scanFlat_none url token cookie af aq .headerLong .dq
      hu' ht' hc' (by cases af <;> cases aq <;> decide) (by decide))]
    exact tryPatterns_cons_some
      (scanFlat_cookieHit url token cookie af aq .headerLong .dq hu' ht' hc hc0
        (by cases af <;> cases aq <;> decide))

end MyCli

namespace MyCli

/-! Normalization of the rendered family.  The continuation replacement
turns a wrapped separator into a double space, the backslash-newline
replacement is then the identity (no backslash is left), whitespace
collapsing merges the double spaces, and trimming is the identity. -/

/-- The separator left behind by the continuation replacement. -/
def dsep (w : Bool) : List Char := if w then [' ', ' '] else [' ']

/-- The rendered description after the continuation replacement. -/
def renderMid (url : List Char) (af : AuthFlag) (aq : Quote) (token : List Char)
    (cf : CookieForm) (cq : Quote) (cookie : List Char) (w1 w2 : Bool) : List Char :=
  "curl ".toList ++
    (url ++ (dsep w1 ++
      renderAuthTo af aq.ch token (dsep w2 ++
        renderCookieTo cf cq.ch cookie [])))

theorem rc_cons_ne {c : Char} (h : c ≠ '\\') (rest : List Char) :
    replaceContinuations (c :: rest) = c :: replaceContinuations rest := by
  rw [replaceContinuations.eq_def]
  split
  · rename_i heq; exact absurd heq (by simp)
  · rename_i heq
    injection heq with h1 h2
    exact absurd h1 h
  · rename_i heq
    injection heq with h1 h2
    rw [h1, h2]

theorem rc_append_nobs (xs : List Char) {ys : List Char}
    (h : ∀ c ∈ xs, c ≠ '\\') :
    replaceContinuations (xs ++ ys) = xs ++ replaceContinuations ys := by
  induction xs with
  | nil => rfl
  | cons c xs ih =>
      rw [List.cons_append, rc_cons_ne (h c (by simp)),
        ih (fun d hd => h d (by simp [hd]))]
      exact rfl

theorem continuationTail_cons (c : Char) (rest : List Char) :
    continuationTail (c :: rest) =
      (if jsIsWs c then continuationTail rest
       else if c = '\\' then ' ' :: continuationRun [] rest
       else ' ' :: (c :: replaceContinuations rest)) := rfl

/-- A separator followed by a run headed by an honest character replaces to
the double- or single-space separator. -/
theorem rc_sep (w : Bool) {l : List Char} (c : Char) (ts : List Char)
    (hl : l = c :: ts) (hws : jsIsWs c = false) (hb : c ≠ '\\') :
    replaceContinuations (sepStr w ++ l) = dsep w ++ replaceContinuations l := by
  subst hl
  cases w
  case false =>
    show replaceContinuations (' ' :: (c :: ts)) = ' ' :: replaceContinuations (c :: ts)
    rw [rc_cons_ne (by decide)]
  case true =>
    show replaceContinuations (' ' :: '\\' :: '\n' :: ' ' :: c :: ts) =
      ' ' :: ' ' :: replaceContinuations (c :: ts)
    rw [rc_cons_ne (by decide)]
    show ' ' :: continuationTail (c :: ts) = ' ' :: ' ' :: replaceContinuations (c :: ts)
    rw [continuationTail_cons, if_neg (by simp [hws]), if_neg hb, rc_cons_ne hb]

theorem rc_renderAuthTo (af : AuthFlag) {q : Char} (hq : q ≠ '\\')
    {token : List Char} (ht : ∀ c ∈ token, c ≠ '\\') (rest : List Char) :
    replaceContinuations (renderAuthTo af q token rest) =
      renderAuthTo af q token (replaceContinuations rest) := by
  cases af
  case short =>
    show replaceContinuations (['-', 'H', ' '] ++
      (q :: ("authorization: Bearer ".toList ++ (token ++ (q :: rest))))) = _
    rw [rc_append_nobs (['-', 'H', ' ']) (by decide), rc_cons_ne hq,
      rc_append_nobs ("authorization: Bearer ".toList) (by decide),
      rc_append_nobs token ht, rc_cons_ne hq]
    rfl
  case long =>
    show replaceContinuations ("--header ".toList ++
      (q :: ("authorization: Bearer ".toList ++ (token ++ (q :: rest))))) = _
    rw [rc_append_nobs ("--header ".toList) (by decide), rc_cons_ne hq,
      rc_append_nobs ("authorization: Bearer ".toList) (by decide),
      rc_append_nobs token ht, rc_cons_ne hq]
    rfl

theorem rc_renderCookieTo (cf : CookieForm) {q : Char} (hq : q ≠ '\\')
    {cookie : List Char} (hc : ∀ c ∈ cookie, c ≠ '\\') (rest : List Char) :
    replaceContinuations (renderCookieTo cf q cookie rest) =
      renderCookieTo cf q cookie (replaceContinuations rest) := by
  cases cf
  case flagB =>
    show replaceContinuations (['-', 'b', ' '] ++ (q :: (cookie ++ (q :: rest)))) = _
    rw [rc_append_nobs (['-', 'b', ' ']) (by decide), rc_cons_ne hq,
      rc_append_nobs cookie hc, rc_cons_ne hq]
    rfl
  case flagCookie =>
    show replaceContinuations ("--cookie ".toList ++ (q :: (cookie ++ (q :: rest)))) = _
    rw [rc_append_nobs ("--cookie ".toList) (by decide), rc_cons_ne hq,
      rc_append_nobs cookie hc, rc_cons_ne hq]
    rfl
  case headerShort =>
    show replaceContinuations (['-', 'H', ' '] ++
      (q :: ("cookie: ".toList ++ (cookie ++ (q :: rest))))) = _
    rw [rc_append_nobs (['-', 'H', ' ']) (by decide), rc_cons_ne hq,
      rc_append_nobs ("cookie: ".toList) (by decide),
      rc_append_nobs cookie hc, rc_cons_ne hq]
    rfl
  case headerLong =>
    show replaceContinuations ("--header ".toList ++
      (q :: ("cookie: ".toList ++ (cookie ++ (q :: rest))))) = _
    rw [rc_append_nobs ("--header ".toList) (by decide), rc_cons_ne hq,
      rc_append_nobs ("cookie: ".toList) (by decide),
      rc_append_nobs cookie hc, rc_cons_ne hq]
    rfl

theorem renderAuthTo_head (af : AuthFlag) (q : Char) (token rest : List Char) :
    ∃ ts, renderAuthTo af q token rest = '-' :: ts := by
  cases af <;> exact ⟨_, rfl⟩

theorem renderCookieTo_head (cf : CookieForm) (q : Char) (cookie rest : List Char) :
    ∃ ts, renderCookieTo cf q cookie rest = '-' :: ts := by
  cases cf <;> exact ⟨_, rfl⟩

theorem quote_ne_bs (aq : Quote) : aq.ch ≠ '\\' := by cases aq <;> decide

theorem quote_ne_ws (aq : Quote) : jsIsWs aq.ch = false := by cases aq <;> decide

/-- Stage 1: the continuation replacement on a rendered description. -/
theorem rc_render (url : List Char) (af : AuthFlag) (aq : Quote)
    (token : List Char) (cf : CookieForm) (cq : Quote) (cookie : List Char)
    (w1 w2 : Bool)
    (hu : ∀ c ∈ url, c ≠ '\\') (ht : ∀ c ∈ token, c ≠ '\\')
    (hc : ∀ c ∈ cookie, c ≠ '\\') :
    replaceContinuations (renderCurl url af aq token cf cq cookie w1 w2) =
      renderMid url af aq token cf cq cookie w1 w2 := by
  obtain ⟨ats, hats⟩ := renderAuthTo_head af aq.ch token
    (sepStr w2 ++ renderCookieTo cf cq.ch cookie [])
  obtain ⟨kts, hkts⟩ := renderCookieTo_head cf cq.ch cookie []
  show replaceContinuations ("curl ".toList ++ (url ++ (sepStr w1 ++
    renderAuthTo af aq.ch token (sepStr w2 ++ renderCookieTo cf cq.ch cookie [])))) = _
  rw [rc_append_nobs ("curl ".toList) (by decide), rc_append_nobs url hu,
    rc_sep w1 '-' ats hats (by decide) (by decide),
    rc_renderAuthTo af (quote_ne_bs aq) ht,
    rc_sep w2 '-' kts hkts (by decide) (by decide),
    rc_renderCookieTo cf (quote_ne_bs cq) hc]
  rfl

theorem rbn_cons_ne {c : Char} (h : c ≠ '\\') (rest : List Char) :
    replaceBackslashNewline (c :: rest) = c :: replaceBackslashNewline rest := by
  rw [replaceBackslashNewline.eq_def]
  split
  · rename_i heq
    injection heq with h1 h2
    exact absurd h1 h
  · rename_i heq
    injection heq with h1 h2
    rw [h1, h2]
  · rename_i heq; exact absurd heq (by simp)

theorem rbn_append_nobs (xs : List Char) {ys : List Char}
    (h : ∀ c ∈ xs, c ≠ '\\') :
    replaceBackslashNewline (xs ++ ys) = xs ++ replaceBackslashNewline ys := by
  induction xs with
  | nil => rfl
  | cons c xs ih =>
      rw [List.cons_append, rbn_cons_ne (h c (by simp)),
        ih (fun d hd => h d (by simp [hd]))]
      exact rfl

theorem dsep_nobs (w : Bool) : ∀ c ∈ dsep w, c ≠ '\\' := by
  cases w <;> decide

theorem rbn_renderAuthTo (af : AuthFlag) {q : Char} (hq : q ≠ '\\')
    {token : List Char} (ht : ∀ c ∈ token, c ≠ '\\') (rest : List Char) :
    replaceBackslashNewline (renderAuthTo af q token rest) =
      renderAuthTo af q token (replaceBackslashNewline rest) := by
  cases af
  case short =>
    show replaceBackslashNewline (['-', 'H', ' '] ++
      (q :: ("authorization: Bearer ".toList ++ (token ++ (q :: rest))))) = _
    rw [rbn_append_nobs (['-', 'H', ' ']) (by decide), rbn_cons_ne hq,
      rbn_append_nobs ("authorization: Bearer ".toList) (by decide),
      rbn_append_nobs token ht, rbn_cons_ne hq]
    rfl
  case long =>
    show replaceBackslashNewline ("--header ".toList ++
      (q :: ("authorization: Bearer ".toList ++ (token ++ (q :: rest))))) = _
    rw [rbn_append_nobs ("--header ".toList) (by decide), rbn_cons_ne hq,
      rbn_append_nobs ("authorization: Bearer ".toList) (by decide),
      rbn_append_nobs token ht, rbn_cons_ne hq]
    rfl

theorem rbn_renderCookieTo (cf : CookieForm) {q : Char} (hq : q ≠ '\\')
    {cookie : List Char} (hc : ∀ c ∈ cookie, c ≠ '\\') (rest : List Char) :
    replaceBackslashNewline (renderCookieTo cf q cookie rest) =
      renderCookieTo cf q cookie (replaceBackslashNewline rest) := by
  cases cf
  case flagB =>
    show replaceBackslashNewline (['-', 'b', ' '] ++ (q :: (cookie ++ (q :: rest)))) = _
    rw [rbn_append_nobs (['-', 'b', ' ']) (by decide), rbn_cons_ne hq,
      rbn_append_nobs cookie hc, rbn_cons_ne hq]
    rfl
  case flagCookie =>
    show replaceBackslashNewline ("--cookie ".toList ++ (q :: (cookie ++ (q :: rest)))) = _
    rw [rbn_append_nobs ("--cookie ".toList) (by decide), rbn_cons_ne hq,
      rbn_append_nobs cookie hc, rbn_cons_ne hq]
    rfl
  case headerShort =>
    show replaceBackslashNewline (['-', 'H', ' '] ++
      (q :: ("cookie: ".toList ++ (cookie ++ (q :: rest))))) = _
    rw [rbn_append_nobs (['-', 'H', ' ']) (by decide), rbn_cons_ne hq,
      rbn_append_nobs ("cookie: ".toList) (by decide),
      rbn_append_nobs cookie hc, rbn_cons_ne hq]
    rfl
  case headerLong =>
    show replaceBackslashNewline ("--header ".toList ++
      (q :: ("cookie: ".toList ++ (cookie ++ (q :: rest))))) = _
    rw [rbn_append_nobs ("--header ".toList) (by decide), rbn_cons_ne hq,
      rbn_append_nobs ("cookie: ".toList) (by decide),
      rbn_append_nobs cookie hc, rbn_cons_ne hq]
    rfl

/-- Stage 2: no backslash is left, the replacement is the identity. -/
theorem rbn_renderMid (url : List Char) (af : AuthFlag) (aq : Quote)
    (token : List Char) (cf : CookieForm) (cq : Quote) (cookie : List Char)
    (w1 w2 : Bool)
    (hu : ∀ c ∈ url, c ≠ '\\') (ht : ∀ c ∈ token, c ≠ '\\')
    (hc : ∀ c ∈ cookie, c ≠ '\\') :
    replaceBackslashNewline (renderMid url af aq token cf cq cookie w1 w2) =
      renderMid url af aq token cf cq cookie w1 w2 := by
  show replaceBackslashNewline ("curl ".toList ++ (url ++ (dsep w1 ++
    renderAuthTo af aq.ch token (dsep w2 ++ renderCookieTo cf cq.ch cookie [])))) = _
  rw [rbn_append_nobs ("curl ".toList) (by decide), rbn_append_nobs url hu,
    rbn_append_nobs (dsep w1) (dsep_nobs w1),
    rbn_renderAuthTo af (quote_ne_bs aq) ht,
    rbn_append_nobs (dsep w2) (dsep_nobs w2),
    rbn_renderCookieTo cf (quote_ne_bs cq) hc]
  rfl

theorem collapse_cons (c : Char) (rest : List Char) :
    collapseWs (c :: rest) =
      (if jsIsWs c then
        (match rest with
         | d :: _ => if jsIsWs d then collapseWs rest else ' ' :: collapseWs rest
         | [] => [' '])
       else c :: collapseWs rest) := rfl

theorem collapse_nonws_cons {c : Char} (h : jsIsWs c = false) (rest : List Char) :
    collapseWs (c :: rest) = c :: collapseWs rest := by
  rw [collapse_cons, if_neg (by simp [h])]

theorem collapse_single_space {c d : Char} (hc : jsIsWs c = true)
    (hd : jsIsWs d = false) (rest : List Char) :
    collapseWs (c :: d :: rest) = ' ' :: collapseWs (d :: rest) := by
  rw [collapse_cons, if_pos hc]
  show (if jsIsWs d then collapseWs (d :: rest) else ' ' :: collapseWs (d :: rest)) = _
  rw [if_neg (by simp [hd])]

theorem collapse_double_space {c d : Char} (hc : jsIsWs c = true)
    (hd : jsIsWs d = true) (rest : List Char) :
    collapseWs (c :: d :: rest) = collapseWs (d :: rest) := by
  rw [collapse_cons, if_pos hc]
  show (if jsIsWs d then collapseWs (d :: rest) else ' ' :: collapseWs (d :: rest)) = _
  rw [if_pos (by simp [hd])]

theorem collapse_append_nonws (xs : List Char) {ys : List Char}
    (h : ∀ c ∈ xs, jsIsWs c = false) :
    collapseWs (xs ++ ys) = xs ++ collapseWs ys := by
  induction xs with
  | nil => rfl
  | cons c xs ih =>
      rw [List.cons_append, collapse_nonws_cons (h c (by simp)),
        ih (fun d hd => h d (by simp [hd]))]
      exact rfl

/-- A non-whitespace word, one space, then a run headed by a
non-whitespace character passes through the collapse. -/
theorem collapse_word_space (xs : List Char) {d : Char} {rest : List Char}
    (hxs : ∀ c ∈ xs, jsIsWs c = false) (hd : jsIsWs d = false) :
    collapseWs (xs ++ (' ' :: d :: rest)) = xs ++ (' ' :: collapseWs (d :: rest)) := by
  rw [collapse_append_nonws xs hxs, collapse_single_space (by decide) hd]

theorem collapse_dsep {c : Char} {rest : List Char} (hc : jsIsWs c = false)
    (w : Bool) :
    collapseWs (dsep w ++ (c :: rest)) = ' ' :: collapseWs (c :: rest) := by
  cases w
  case false =>
    show collapseWs (' ' :: c :: rest) = _
    rw [collapse_single_space (by decide) hc]
  case true =>
    show collapseWs (' ' :: ' ' :: c :: rest) = _
    rw [collapse_double_space (by decide) (by decide),
      collapse_single_space (by decide) hc]

theorem collapse_renderAuthTo (af : AuthFlag) {q : Char} (hq : jsIsWs q = false)
    {token : List Char} (ht : ∀ c ∈ token, jsIsWs c = false) (ht0 : token ≠ [])
    (rest : List Char) :
    collapseWs (renderAuthTo af q token rest) =
      renderAuthTo af q token (collapseWs rest) := by
  obtain ⟨t, tk, rfl⟩ : ∃ t tk, token = t :: tk := by
    cases token with
    | nil => exact absurd rfl ht0
    | cons t tk => exact ⟨t, tk, rfl⟩
  have htws : jsIsWs t = false := ht t (by simp)
  have htail : collapseWs (t :: (tk ++ (q :: rest))) =
      t :: (tk ++ (q :: collapseWs rest)) := by
    rw [show t :: (tk ++ (q :: rest)) = (t :: tk) ++ (q :: rest) from rfl,
      collapse_append_nonws (t :: tk) ht, collapse_nonws_cons hq]
    exact rfl
  cases af
  case short =>
    show collapseWs (['-', 'H'] ++ (' ' :: q :: ("authorization:".toList ++
      (' ' :: 'B' :: ("earer".toList ++ (' ' :: t :: (tk ++ (q :: rest)))))))) = _
    rw [collapse_word_space (['-', 'H']) (by decide) hq, collapse_nonws_cons hq,
      collapse_word_space ("authorization:".toList) (by decide) (by decide),
      show ('B' :: ("earer".toList ++ (' ' :: t :: (tk ++ (q :: rest))))) =
        ("Bearer".toList ++ (' ' :: t :: (tk ++ (q :: rest)))) from rfl,
      collapse_word_space ("Bearer".toList) (by decide) htws, htail]
    rfl
  case long =>
    show collapseWs ("--header".toList ++ (' ' :: q :: ("authorization:".toList ++
      (' ' :: 'B' :: ("earer".toList ++ (' ' :: t :: (tk ++ (q :: rest)))))))) = _
    rw [collapse_word_space ("--header".toList) (by decide) hq, collapse_nonws_cons hq,
      collapse_word_space ("authorization:".toList) (by decide) (by decide),
      show ('B' :: ("earer".toList ++ (' ' :: t :: (tk ++ (q :: rest))))) =
        ("Bearer".toList ++ (' ' :: t :: (tk ++ (q :: rest)))) from rfl,
      collapse_word_space ("Bearer".toList) (by decide) htws, htail]
    rfl

theorem collapse_renderCookieTo (cf : CookieForm) {q : Char} (hq : jsIsWs q = false)
    {cookie : List Char} (hc : ∀ c ∈ cookie, jsIsWs c = false) (hc0 : cookie ≠ [])
    (rest : List Char) :
    collapseWs (renderCookieTo cf q cookie rest) =
      renderCookieTo cf q cookie (collapseWs rest) := by
  obtain ⟨t, tk, rfl⟩ : ∃ t tk, cookie = t :: tk := by
    cases cookie with
    | nil => exact absurd rfl hc0
    | cons t tk => exact ⟨t, tk, rfl⟩
  have htws : jsIsWs t = false := hc t (by simp)
  have htail : collapseWs (t :: (tk ++ (q :: rest))) =
      t :: (tk ++ (q :: collapseWs rest)) := by
    rw [show t :: (tk ++ (q :: rest)) = (t :: tk) ++ (q :: rest) from rfl,
      collapse_append_nonws (t :: tk) hc, collapse_nonws_cons hq]
    exact rfl
  cases cf
  case flagB =>
    show collapseWs (['-', 'b'] ++ (' ' :: q :: (t :: (tk ++ (q :: rest))))) = _
    rw [collapse_word_space (['-', 'b']) (by decide) hq, collapse_nonws_cons hq, htail]
    rfl
  case flagCookie =>
    show collapseWs ("--cookie".toList ++ (' ' :: q :: (t :: (tk ++ (q :: rest))))) = _
    rw [collapse_word_space ("--cookie".toList) (by decide) hq,
      collapse_nonws_cons hq, htail]
    rfl
  case headerShort =>
    show collapseWs (['-', 'H'] ++ (' ' :: q :: ("cookie:".toList ++
      (' ' :: t :: (tk ++ (q :: rest)))))) = _
    rw [collapse_word_space (['-', 'H']) (by decide) hq, collapse_nonws_cons hq,
      collapse_word_space ("cookie:".toList) (by decide) htws, htail]
    rfl
  case headerLong =>
    show collapseWs ("--header".toList ++ (' ' :: q :: ("cookie:".toList ++
      (' ' :: t :: (tk ++ (q :: rest)))))) = _
    rw [collapse_word_space ("--header".toList) (by decide) hq, collapse_nonws_cons hq,
      collapse_word_space ("cookie:".toList) (by decide) htws, htail]
    rfl

/-- Stage 3: collapsing the whitespace flattens the separators. -/
theorem collapse_renderMid (url : List Char) (af : AuthFlag) (aq : Quote)
    (token : List Char) (cf : CookieForm) (cq : Quote) (cookie : List Char)
    (w1 w2 : Bool)
    (hu : ∀ c ∈ url, jsIsWs c = false) (hu0 : url ≠ [])
    (ht : ∀ c ∈ token, jsIsWs c = false) (ht0 : token ≠ [])
    (hc : ∀ c ∈ cookie, jsIsWs c = false) (hc0 : cookie ≠ []) :
    collapseWs (renderMid url af aq token cf cq cookie w1 w2) =
      renderCurl url af aq token cf cq cookie false false := by
  obtain ⟨u, us, rfl⟩ : ∃ u us, url = u :: us := by
    cases url with
    | nil => exact absurd rfl hu0
    | cons u us => exact ⟨u, us, rfl⟩
  have huws : jsIsWs u = false := hu u (by simp)
  obtain ⟨ats, hats⟩ := renderAuthTo_head af aq.ch token
    (dsep w2 ++ renderCookieTo cf cq.ch cookie [])
  obtain ⟨kts, hkts⟩ := renderCookieTo_head cf cq.ch cookie []
  show collapseWs ("curl".toList ++ (' ' :: u :: (us ++ (dsep w1 ++
    renderAuthTo af aq.ch token (dsep w2 ++ renderCookieTo cf cq.ch cookie []))))) = _
  rw [collapse_word_space ("curl".toList) (by decide) huws,
    show (u :: (us ++ (dsep w1 ++ renderAuthTo af aq.ch token (dsep w2 ++
      renderCookieTo cf cq.ch cookie [])))) = ((u :: us) ++ (dsep w1 ++
      renderAuthTo af aq.ch token (dsep w2 ++
        renderCookieTo cf cq.ch cookie []))) from rfl,
    collapse_append_nonws (u :: us) hu, hats,
    collapse_dsep (by decide) w1, ← hats,
    collapse_renderAuthTo af (quote_ne_ws aq) ht ht0, hkts,
    collapse_dsep (by decide) w2, ← hkts,
    collapse_renderCookieTo cf (quote_ne_ws cq) hc hc0,
    show collapseWs ([] : List Char) = [] from rfl]
  rfl

theorem renderCookieTo_last (cf : CookieForm) (q : Char) (cookie : List Char) :
    ∃ front, renderCookieTo cf q cookie [] = front ++ [q] := by
  cases cf
  case flagB => exact ⟨'-' :: 'b' :: ' ' :: q :: cookie, by simp [renderCookieTo]⟩
  case flagCookie =>
    exact ⟨"--cookie ".toList ++ (q :: cookie), by simp [renderCookieTo]⟩
  case headerShort =>
    exact ⟨'-' :: 'H' :: ' ' :: q :: ("cookie: ".toList ++ cookie),
      by simp [renderCookieTo]⟩
  case headerLong =>
    exact ⟨"--header ".toList ++ (q :: ("cookie: ".toList ++ cookie)),
      by simp [renderCookieTo]⟩

theorem renderAuthTo_restLast (af : AuthFlag) (q : Char) (token rest : List Char) :
    ∃ g, renderAuthTo af q token rest = g ++ rest := by
  cases af
  case short =>
    exact ⟨'-' :: 'H' :: ' ' :: q :: ("authorization: Bearer ".toList ++
      (token ++ [q])), by simp [renderAuthTo]⟩
  case long =>
    exact ⟨"--header ".toList ++ (q :: ("authorization: Bearer ".toList ++
      (token ++ [q]))), by simp [renderAuthTo]⟩

theorem renderCurl_last (url : List Char) (af : AuthFlag) (aq : Quote)
    (token : List Char) (cf : CookieForm) (cq : Quote) (cookie : List Char) :
    ∃ front, renderCurl url af aq token cf cq cookie false false =
      front ++ [cq.ch] := by
  obtain ⟨f, hf⟩ := renderCookieTo_last cf cq.ch cookie
  obtain ⟨g, hg⟩ := renderAuthTo_restLast af aq.ch token
    (sepStr false ++ renderCookieTo cf cq.ch cookie [])
  refine ⟨"curl ".toList ++ (url ++ (sepStr false ++ (g ++ (sepStr false ++ f)))), ?_⟩
  show "curl ".toList ++ (url ++ (sepStr false ++
    renderAuthTo af aq.ch token (sepStr false ++
      renderCookieTo cf cq.ch cookie []))) = _
  rw [hg, hf]
  simp [List.append_assoc]

/-- Stage 4: the flat description has no whitespace at either end, so the
trim is the identity. -/
theorem trim_renderFlat (url : List Char) (af : AuthFlag) (aq : Quote)
    (token : List Char) (cf : CookieForm) (cq : Quote) (cookie : List Char) :
    jsTrimL (renderCurl url af aq token cf cq cookie false false) =
      renderCurl url af aq token cf cq cookie false false := by
  obtain ⟨t0, ht0⟩ : ∃ t, renderCurl url af aq token cf cq cookie false false =
      'c' :: t := ⟨_, rfl⟩
  obtain ⟨front, hfront⟩ := renderCurl_last url af aq token cf cq cookie
  show (((renderCurl url af aq token cf cq cookie false false).dropWhile
    jsIsWs).reverse.dropWhile jsIsWs).reverse = _
  rw [ht0, List.dropWhile_cons_of_neg (by decide), ← ht0, hfront,
    List.reverse_append, show ([cq.ch].reverse : List Char) = [cq.ch] from rfl,
    show ([cq.ch] ++ front.reverse : List Char) = cq.ch :: front.reverse from rfl,
    List.dropWhile_cons_of_neg (by cases cq <;> simp [jsIsWs] <;> decide),
    List.reverse_cons, List.reverse_reverse]

/-- The whole normalization takes a wrapped rendered description to its
flat single-spaced form. -/
theorem normalize_render (url : List Char) (af : AuthFlag) (aq : Quote)
    (token : List Char) (cf : CookieForm) (cq : Quote) (cookie : List Char)
    (w1 w2 : Bool)
    (hu : ∀ c ∈ url, plainChar c = true) (hu0 : url ≠ [])
    (ht : ∀ c ∈ token, plainChar c = true) (ht0 : token ≠ [])
    (hc : ∀ c ∈ cookie, plainChar c = true) (hc0 : cookie ≠ []) :
    normalizeCurlL (renderCurl url af aq token cf cq cookie w1 w2) =
      renderCurl url af aq token cf cq cookie false false := by
  have hub : ∀ c ∈ url, c ≠ '\\' := fun c h => plainChar_bs (hu c h)
  have htb : ∀ c ∈ token, c ≠ '\\' := fun c h => plainChar_bs (ht c h)
  have hcb : ∀ c ∈ cookie, c ≠ '\\' := fun c h => plainChar_bs (hc c h)
  have huw : ∀ c ∈ url, jsIsWs c = false := fun c h => plainChar_ws (hu c h)
  have htw : ∀ c ∈ token, jsIsWs c = false := fun c h => plainChar_ws (ht c h)
  have hcw : ∀ c ∈ cookie, jsIsWs c = false := fun c h => plainChar_ws (hc c h)
  show jsTrimL (collapseWs (replaceBackslashNewline (replaceContinuations
    (renderCurl url af aq token cf cq cookie w1 w2)))) = _
  rw [rc_render url af aq token cf cq cookie w1 w2 hub htb hcb,
    rbn_renderMid url af aq token cf cq cookie w1 w2 hub htb hcb,
    collapse_renderMid url af aq token cf cq cookie w1 w2 huw hu0 htw ht0 hcw hc0,
    trim_renderFlat url af aq token cf cq cookie]

end MyCli

namespace MyCli

/-! The extraction claims, assembled. -/

theorem dropWhile_ws_nows {cs : List Char} (h : ∀ c ∈ cs, jsIsWs c = false) :
    cs.dropWhile jsIsWs = cs := by
  cases cs with
  | nil => rfl
  | cons c cs => rw [List.dropWhile_cons_of_neg (by simp [h c (by simp)])]

theorem jsTrimL_nows {cs : List Char} (h : ∀ c ∈ cs, jsIsWs c = false) :
    jsTrimL cs = cs := by
  show ((cs.dropWhile jsIsWs).reverse.dropWhile jsIsWs).reverse = cs
  rw [dropWhile_ws_nows h,
    dropWhile_ws_nows (fun c hc => h c (by simpa using hc)),
    List.reverse_reverse]

/-- C1: every well-formed rendered description — any auth flag spelling,
any cookie spelling, any quote styles, flat or wrapped at either
separator — parses to the credential with the bearer token and the cookie
value. -/
theorem parseCurlCommand_wellFormed (url token cookie : List Char)
    (af : AuthFlag) (aq : Quote) (cf : CookieForm) (cq : Quote) (w1 w2 : Bool)
    (hu : ∀ c ∈ url, plainChar c = true) (hu0 : url ≠ [])
    (ht : ∀ c ∈ token, plainChar c = true) (ht0 : token ≠ [])
    (hc : ∀ c ∈ cookie, plainChar c = true) (hc0 : cookie ≠ []) :
    parseCurlCommand (String.mk (renderCurl url af aq token cf cq cookie w1 w2)) =
      .ok ⟨"Bearer " ++ String.mk token, String.mk cookie⟩ := by
  have hA : extractAuth (renderCurl url af aq token cf cq cookie false false) =
      "Bearer " ++ String.mk token := by
    show (match tryPatterns authPatterns
        (renderCurl url af aq token cf cq cookie false false) with
      | some cap => "Bearer " ++ String.mk (jsTrimL cap)
      | none => "") = _
    rw [tryAuth_flat url token cookie af aq cf cq hu ht ht0 hc]
    show "Bearer " ++ String.mk (jsTrimL token) = _
    rw [jsTrimL_nows (fun c h => plainChar_ws (ht c h))]
  have hK : extractCookie (renderCurl url af aq token cf cq cookie false false) =
      String.mk cookie := by
    show (match tryPatterns cookiePatterns
        (renderCurl url af aq token cf cq cookie false false) with
      | some cap => String.mk (jsTrimL cap)
      | none => "") = _
    rw [tryCookie_flat url token cookie af aq cf cq hu ht hc hc0]
    show String.mk (jsTrimL cookie) = _
    rw [jsTrimL_nows (fun c h => plainChar_ws (hc c h))]
  have h1 : ("Bearer " ++ String.mk token) ≠ "" := by
    intro h
    have h2 : ("Bearer ".toList ++ token : List Char) = [] := congrArg String.toList h
    simp at h2
  have h2 : String.mk cookie ≠ "" := by
    intro h
    have h3 : cookie = [] := congrArg String.toList h
    exact hc0 h3
  simp only [parseCurlCommand]
  rw [show (String.mk (renderCurl url af aq token cf cq cookie w1 w2)).toList =
      renderCurl url af aq token cf cq cookie w1 w2 from rfl,
    normalize_render url af aq token cf cq cookie w1 w2 hu hu0 ht ht0 hc hc0,
    hA, hK, if_neg (by simp [h1, h2])]

/-- C1 witness. -/
theorem parseCurlCommand_wellFormed_witness :
    parseCurlCommand (String.mk (renderCurl "https://example.edu/api".toList
        .short .sq "abc123".toList .flagB .sq "session=xyz".toList true false)) =
      .ok ⟨"Bearer " ++ String.mk "abc123".toList, String.mk "session=xyz".toList⟩ :=
  parseCurlCommand_wellFormed "https://example.edu/api".toList "abc123".toList
    "session=xyz".toList .short .sq .flagB .sq true false
    (by decide) (by decide) (by decide) (by decide) (by decide) (by decide)

/-! A description with an authorization part but no cookie part. -/

/-- A well-formed description carrying only the authorization header. -/
def renderCurlNoCookie (url : List Char) (af : AuthFlag) (aq : Quote)
    (token : List Char) (w : Bool) : List Char :=
  "curl ".toList ++ (url ++ (sepStr w ++ renderAuthTo af aq.ch token []))

theorem normalize_renderNC (url : List Char) (af : AuthFlag) (aq : Quote)
    (token : List Char) (w : Bool)
    (hu : ∀ c ∈ url, plainChar c = true) (hu0 : url ≠ [])
    (ht : ∀ c ∈ token, plainChar c = true) (ht0 : token ≠ []) :
    normalizeCurlL (renderCurlNoCookie url af aq token w) =
      renderCurlNoCookie url af aq token false := by
  have hub : ∀ c ∈ url, c ≠ '\\' := fun c h => plainChar_bs (hu c h)
  have htb : ∀ c ∈ token, c ≠ '\\' := fun c h => plainChar_bs (ht c h)
  have huw : ∀ c ∈ url, jsIsWs c = false := fun c h => plainChar_ws (hu c h)
  have htw : ∀ c ∈ token, jsIsWs c = false := fun c h => plainChar_ws (ht c h)
  obtain ⟨u, us, rfl⟩ : ∃ u us, url = u :: us := by
    cases url with
    | nil => exact absurd rfl hu0
    | cons u us => exact ⟨u, us, rfl⟩
  have huws : jsIsWs u = false := huw u (by simp)
  obtain ⟨ats, hats⟩ := renderAuthTo_head af aq.ch token []
  have hrc : replaceContinuations (renderCurlNoCookie (u :: us) af aq token w) =
      "curl ".toList ++ ((u :: us) ++ (dsep w ++ renderAuthTo af aq.ch token [])) := by
    show replaceContinuations ("curl ".toList ++ ((u :: us) ++ (sepStr w ++
      renderAuthTo af aq.ch token []))) = _
    rw [rc_append_nobs ("curl ".toList) (by decide), rc_append_nobs (u :: us) hub,
      rc_sep w '-' ats hats (by decide) (by decide),
      rc_renderAuthTo af (quote_ne_bs aq) htb]
    rfl
  have hrbn : replaceBackslashNewline ("curl ".toList ++ ((u :: us) ++ (dsep w ++
      renderAuthTo af aq.ch token []))) =
      "curl ".toList ++ ((u :: us) ++ (dsep w ++ renderAuthTo af aq.ch token [])) := by
    rw [rbn_append_nobs ("curl ".toList) (by decide), rbn_append_nobs (u :: us) hub,
      rbn_append_nobs (dsep w) (dsep_nobs w),
      rbn_renderAuthTo af (quote_ne_bs aq) htb]
    rfl
  have hcol : collapseWs ("curl ".toList ++ ((u :: us) ++ (dsep w ++
      renderAuthTo af aq.ch token []))) =
      renderCurlNoCookie (u :: us) af aq token false := by
    show collapseWs ("curl".toList ++ (' ' :: u :: (us ++ (dsep w ++
      renderAuthTo af aq.ch token [])))) = _
    rw [collapse_word_space ("curl".toList) (by decide) huws,
      show (u :: (us ++ (dsep w ++ renderAuthTo af aq.ch token []))) =
        ((u :: us) ++ (dsep w ++ renderAuthTo af aq.ch token [])) from rfl,
      collapse_append_nonws (u :: us) huw, hats,
      collapse_dsep (by decide) w, ← hats,
      collapse_renderAuthTo af (quote_ne_ws aq) htw ht0,
      show collapseWs ([] : List Char) = [] from rfl]
    rfl
  have htrim : jsTrimL (renderCurlNoCookie (u :: us) af aq token false) =
      renderCurlNoCookie (u :: us) af aq token false := by
    obtain ⟨t0, ht0'⟩ : ∃ t, renderCurlNoCookie (u :: us) af aq token false =
        'c' :: t := ⟨_, rfl⟩
    obtain ⟨g, hg⟩ := renderAuthTo_restLast af aq.ch token []
    have hfront : renderCurlNoCookie (u :: us) af aq token false =
        ("curl ".toList ++ ((u :: us) ++ (sepStr false ++ g.dropLast))) ++ [aq.ch] := by
      have hg2 : renderAuthTo af aq.ch token [] = g := by rw [hg]; simp
      have hg3 : ∃ g2, renderAuthTo af aq.ch token [] = g2 ++ [aq.ch] := by
        cases af
        case short =>
          exact ⟨'-' :: 'H' :: ' ' :: aq.ch :: ("authorization: Bearer ".toList ++
            token), by simp [renderAuthTo]⟩
        case long =>
          exact ⟨"--header ".toList ++ (aq.ch :: ("authorization: Bearer ".toList ++
            token)), by simp [renderAuthTo]⟩
      obtain ⟨g2, hg4⟩ := hg3
      show "curl ".toList ++ ((u :: us) ++ (sepStr false ++
        renderAuthTo af aq.ch token [])) = _
      rw [hg4, hg2.symm.trans hg4]
      simp [List.append_assoc, List.dropLast_concat]
    show (((renderCurlNoCookie (u :: us) af aq token false).dropWhile
      jsIsWs).reverse.dropWhile jsIsWs).reverse = _
    rw [ht0', List.dropWhile_cons_of_neg (by decide), ← ht0', hfront,
      List.reverse_append, show ([aq.ch].reverse : List Char) = [aq.ch] from rfl,
      show ([aq.ch] ++ ("curl ".toList ++ ((u :: us) ++ (sepStr false ++
        g.dropLast))).reverse : List Char) = aq.ch :: ("curl ".toList ++
        ((u :: us) ++ (sepStr false ++ g.dropLast))).reverse from rfl,
      List.dropWhile_cons_of_neg (by simp [quote_ne_ws aq]),
      List.reverse_cons, List.reverse_reverse]
  show jsTrimL (collapseWs (replaceBackslashNewline (replaceContinuations
    (renderCurlNoCookie (u :: us) af aq token w)))) = _
  rw [hrc, hrbn, hcol, htrim]

theorem scanNC_authHit (url token : List Char) (af : AuthFlag) (aq : Quote)
    (hu : ∀ c ∈ url, c ≠ '-')
    (ht : ∀ c ∈ token, plainChar c = true) (ht0 : token ≠ []) :
    scanFirst (.lit '-' :: authTailOf af aq) aq.ch
      (renderCurlNoCookie url af aq token false) = some token := by
  show scanFirst (.lit '-' :: authTailOf af aq) aq.ch
    ("curl ".toList ++ (url ++ ([' '] ++ renderAuthTo af aq.ch token []))) = _
  rw [scanFirst_skip _ (by decide), scanFirst_skip _ hu, scanFirst_skip _ (by decide)]
  have hm := matchAuth af aq token [] ht ht0
  rw [authToksOf_eq] at hm
  exact scanFirst_hit' hm

theorem scanNC_none {ts : List RegTok} {q' : Char}
    (url token : List Char) (af : AuthFlag) (aq : Quote)
    (hu : ∀ c ∈ url, c ≠ '-') (ht : ∀ c ∈ token, c ≠ '-')
    (hfa : authFormFail (.lit '-' :: ts) af aq = true) :
    scanFirst (.lit '-' :: ts) q' (renderCurlNoCookie url af aq token false) = none := by
  show scanFirst (.lit '-' :: ts) q'
    ("curl ".toList ++ (url ++ ([' '] ++ renderAuthTo af aq.ch token []))) = _
  rw [scanFirst_skip _ (by decide), scanFirst_skip _ hu, scanFirst_skip _ (by decide),
    skip_authSeg af aq token _ ht hfa]
  rfl

theorem tryAuth_NC (url token : List Char) (af : AuthFlag) (aq : Quote)
    (hu : ∀ c ∈ url, plainChar c = true)
    (ht : ∀ c ∈ token, plainChar c = true) (ht0 : token ≠ []) :
    tryPatterns authPatterns (renderCurlNoCookie url af aq token false) =
      some token := by
  have hu' := plain_nodash hu
  have ht' := plain_nodash ht
  rw [authPatterns_eq]
  cases af <;> cases aq
  case short.sq =>
    rw [authToksOf_eq]
    exact tryPatterns_cons_some (scanNC_authHit url token .short .sq hu' ht ht0)
  case short.dq =>
    rw [authToksOf_eq, authToksOf_eq]
    rw [tryPatterns_cons_none (scanNC_none url token .short .dq hu' ht' (by decide))]
    exact tryPatterns_cons_some (scanNC_authHit url token .short .dq hu' ht ht0)
  case long.sq =>
    rw [authToksOf_eq, authToksOf_eq, authToksOf_eq]
    rw [tryPatterns_cons_none (scanNC_none url token .long .sq hu' ht' (by decide))]
    rw [tryPatterns_cons_none (scanNC_none url token .long .sq hu' ht' (by decide))]
    exact tryPatterns_cons_some (scanNC_authHit url token .long .sq hu' ht ht0)
  case long.dq =>
    rw [authToksOf_eq, authToksOf_eq, authToksOf_eq, authToksOf_eq]
    rw [tryPatterns_cons_none (scanNC_none url token .long .dq hu' ht' (by decide))]
    rw [tryPatterns_cons_none (scanNC_none url token .long .dq hu' ht' (by decide))]
    rw [tryPatterns_cons_none (scanNC_none url token .long .dq hu' ht' (by decide))]
    exact tryPatterns_cons_some (scanNC_authHit url token .long .dq hu' ht ht0)

theorem tryCookie_NC (url token : List Char) (af : AuthFlag) (aq : Quote)
    (hu : ∀ c ∈ url, plainChar c = true)
    (ht : ∀ c ∈ token, plainChar c = true) :
    tryPatterns cookiePatterns (renderCurlNoCookie url af aq token false) =
      none := by
  have hu' := plain_nodash hu
  have ht' := plain_nodash ht
  rw [cookiePatterns_eq]
  rw [cookieToksOf_eq, cookieToksOf_eq, cookieToksOf_eq, cookieToksOf_eq,
    cookieToksOf_eq, cookieToksOf_eq, cookieToksOf_eq, cookieToksOf_eq]
  rw [tryPatterns_cons_none (scanNC_none url token af aq hu' ht'
    (by cases af <;> cases aq <;> decide))]
  rw [tryPatterns_cons_none (scanNC_none url token af aq hu' ht'
    (by cases af <;> cases aq <;> decide))]
  rw [tryPatterns_cons_none (scanNC_none url token af aq hu' ht'
    (by cases af <;> cases aq <;> decide))]
  rw [tryPatterns_cons_none (scanNC_none url token af aq hu' ht'
    (by cases af <;> cases aq <;> decide))]
  rw [tryPatterns_cons_none (scanNC_none url token af aq hu' ht'
    (by cases af <;> cases aq <;> decide))]
  rw [tryPatterns_cons_none (scanNC_none url token af aq hu' ht'
    (by cases af <;> cases aq <;> decide))]
  rw [tryPatterns_cons_none (scanNC_none url token af aq hu' ht'
    (by cases af <;> cases aq <;> decide))]
  rw [tryPatterns_cons_none (scanNC_none url token af aq hu' ht'
    (by cases af <;> cases aq <;> decide))]
  rfl

/-! Dash-free inputs match no pattern at all. -/

theorem scanFirst_nodash {ts : List RegTok} {q : Char} (cs : List Char)
    (h : ∀ c ∈ cs, c ≠ '-') :
    scanFirst (.lit '-' :: ts) q cs = none := by
  have h2 : scanFirst (RegTok.lit '-' :: ts) q (cs ++ []) =
      scanFirst (RegTok.lit '-' :: ts) q [] := scanFirst_skip [] h
  rw [List.append_nil] at h2
  rw [h2]
  rfl

theorem tryAuth_nodash (cs : List Char) (h : ∀ c ∈ cs, c ≠ '-') :
    tryPatterns authPatterns cs = none := by
  rw [authPatterns_eq, authToksOf_eq, authToksOf_eq, authToksOf_eq, authToksOf_eq,
    tryPatterns_cons_none (scanFirst_nodash cs h),
    tryPatterns_cons_none (scanFirst_nodash cs h),
    tryPatterns_cons_none (scanFirst_nodash cs h),
    tryPatterns_cons_none (scanFirst_nodash cs h)]
  rfl

theorem tryCookie_nodash (cs : List Char) (h : ∀ c ∈ cs, c ≠ '-') :
    tryPatterns cookiePatterns cs = none := by
  rw [cookiePatterns_eq, cookieToksOf_eq, cookieToksOf_eq, cookieToksOf_eq,
    cookieToksOf_eq, cookieToksOf_eq, cookieToksOf_eq, cookieToksOf_eq,
    cookieToksOf_eq,
    tryPatterns_cons_none (scanFirst_nodash cs h),
    tryPatterns_cons_none (scanFirst_nodash cs h),
    tryPatterns_cons_none (scanFirst_nodash cs h),
    tryPatterns_cons_none (scanFirst_nodash cs h),
    tryPatterns_cons_none (scanFirst_nodash cs h),
    tryPatterns_cons_none (scanFirst_nodash cs h),
    tryPatterns_cons_none (scanFirst_nodash cs h),
    tryPatterns_cons_none (scanFirst_nodash cs h)]
  rfl

theorem rc_nobs {cs : List Char} (h : ∀ c ∈ cs, c ≠ '\\') :
    replaceContinuations cs = cs := by
  have h2 : replaceContinuations (cs ++ []) = cs ++ replaceContinuations [] :=
    rc_append_nobs cs h
  rw [List.append_nil] at h2
  rw [h2, show replaceContinuations [] = [] from rfl, List.append_nil]

theorem rbn_nobs {cs : List Char} (h : ∀ c ∈ cs, c ≠ '\\') :
    replaceBackslashNewline cs = cs := by
  have h2 : replaceBackslashNewline (cs ++ []) = cs ++ replaceBackslashNewline [] :=
    rbn_append_nobs cs h
  rw [List.append_nil] at h2
  rw [h2, show replaceBackslashNewline [] = [] from rfl, List.append_nil]

theorem mem_collapseWs {cs : List Char} :
    ∀ c ∈ collapseWs cs, c = ' ' ∨ c ∈ cs := by
  induction cs with
  | nil => intro c hc; exact absurd hc (by simp [show collapseWs [] = [] from rfl])
  | cons d rest ih =>
      intro c hc
      rw [collapse_cons] at hc
      by_cases hws : jsIsWs d = true
      · rw [if_pos hws] at hc
        cases rest with
        | nil =>
            simp at hc
            exact Or.inl hc
        | cons e rest' =>
            have hc' : c ∈ (if jsIsWs e = true then collapseWs (e :: rest')
                else ' ' :: collapseWs (e :: rest')) := hc
            by_cases hwe : jsIsWs e = true
            · rw [if_pos hwe] at hc'
              rcases ih c hc' with h | h
              · exact Or.inl h
              · exact Or.inr (by simp [h])
            · rw [if_neg hwe] at hc'
              rcases List.mem_cons.mp hc' with rfl | h
              · exact Or.inl rfl
              · rcases ih c h with h2 | h2
                · exact Or.inl h2
                · exact Or.inr (by simp [h2])
      · rw [if_neg hws] at hc
        rcases List.mem_cons.mp hc with rfl | h
        · exact Or.inr (by simp)
        · rcases ih c h with h2 | h2
          · exact Or.inl h2
          · exact Or.inr (by simp [h2])

theorem jsTrimL_subset {cs : List Char} : ∀ c ∈ jsTrimL cs, c ∈ cs := by
  intro c hc
  have hc2 : c ∈ (cs.dropWhile jsIsWs).reverse.dropWhile jsIsWs := by
    simpa [jsTrimL] using hc
  have hc3 : c ∈ (cs.dropWhile jsIsWs).reverse := (List.dropWhile_sublist _).subset hc2
  have hc4 : c ∈ cs.dropWhile jsIsWs := by simpa using hc3
  exact (List.dropWhile_sublist _).subset hc4

theorem normalize_nodash {cs : List Char} (hd : ∀ c ∈ cs, c ≠ '-')
    (hb : ∀ c ∈ cs, c ≠ '\\') :
    ∀ c ∈ normalizeCurlL cs, c ≠ '-' := by
  intro c hc
  have hc2 : c ∈ collapseWs cs := by
    have : normalizeCurlL cs = jsTrimL (collapseWs cs) := by
      show jsTrimL (collapseWs (replaceBackslashNewline (replaceContinuations cs))) = _
      rw [rc_nobs hb, rbn_nobs hb]
    rw [this] at hc
    exact jsTrimL_subset c hc
  rcases mem_collapseWs c hc2 with rfl | h
  · decide
  · exact hd c h

/-- C8: the failure of `parseCurlCommand` names exactly the missing
subset: a description with a bearer token but no cookie part fails naming
exactly Cookie; a description where neither pattern family can match
(no dash at all) fails naming Authorization and Cookie; and whenever both
extractions succeed, it does not fail. -/
theorem parseCurlCommand_missing_naming :
    (∀ (url token : List Char) (af : AuthFlag) (aq : Quote) (w : Bool),
       (∀ c ∈ url, plainChar c = true) → url ≠ [] →
       (∀ c ∈ token, plainChar c = true) → token ≠ [] →
       parseCurlCommand (String.mk (renderCurlNoCookie url af aq token w)) =
         .error (["Cookie"], curlErrorMsg ["Cookie"])) ∧
    (∀ s : String,
       (∀ c ∈ s.toList, c ≠ '-') → (∀ c ∈ s.toList, c ≠ '\\') →
       parseCurlCommand s =
         .error (["Authorization", "Cookie"],
           curlErrorMsg ["Authorization", "Cookie"])) ∧
    (∀ s : String,
       extractAuth (normalizeCurlL s.toList) ≠ "" →
       extractCookie (normalizeCurlL s.toList) ≠ "" →
       parseCurlCommand s =
         .ok ⟨extractAuth (normalizeCurlL s.toList),
           extractCookie (normalizeCurlL s.toList)⟩) := by
  refine ⟨?_, ?_, ?_⟩
  · intro url token af aq w hu hu0 ht ht0
    have hA : extractAuth (renderCurlNoCookie url af aq token false) =
        "Bearer " ++ String.mk token := by
      show (match tryPatterns authPatterns
          (renderCurlNoCookie url af aq token false) with
        | some cap => "Bearer " ++ String.mk (jsTrimL cap)
        | none => "") = _
      rw [tryAuth_NC url token af aq hu ht ht0]
      show "Bearer " ++ String.mk (jsTrimL token) = _
      rw [jsTrimL_nows (fun c h => plainChar_ws (ht c h))]
    have hK : extractCookie (renderCurlNoCookie url af aq token false) = "" := by
      show (match tryPatterns cookiePatterns
          (renderCurlNoCookie url af aq token false) with
        | some cap => String.mk (jsTrimL cap)
        | none => "") = _
      rw [tryCookie_NC url token af aq hu ht]
    have h1 : ("Bearer " ++ String.mk token) ≠ "" := by
      intro h
      have h2 : ("Bearer ".toList ++ token : List Char) = [] :=
        congrArg String.toList h
      simp at h2
    simp only [parseCurlCommand]
    rw [show (String.mk (renderCurlNoCookie url af aq token w)).toList =
        renderCurlNoCookie url af aq token w from rfl,
      normalize_renderNC url af aq token w hu hu0 ht ht0, hA, hK,
      if_pos (by simp), if_neg h1, if_pos rfl]
    rfl
  · intro s hd hb
    have hnd := normalize_nodash hd hb
    have hA : extractAuth (normalizeCurlL s.toList) = "" := by
      show (match tryPatterns authPatterns (normalizeCurlL s.toList) with
        | some cap => "Bearer " ++ String.mk (jsTrimL cap)
        | none => "") = _
      rw [tryAuth_nodash _ hnd]
    have hK : extractCookie (normalizeCurlL s.toList) = "" := by
      show (match tryPatterns cookiePatterns (normalizeCurlL s.toList) with
        | some cap => String.mk (jsTrimL cap)
        | none => "") = _
      rw [tryCookie_nodash _ hnd]
    simp only [parseCurlCommand]
    rw [hA, hK, if_pos (by simp), if_pos rfl, if_pos rfl]
    rfl
  · intro s h1 h2
    simp only [parseCurlCommand]
    rw [if_neg (by
      intro h
      simp at h
      exact h.elim (fun ha => h1 ha) (fun hk => h2 hk))]

/-- C8 witness: the three parts at concrete inputs. -/
theorem parseCurlCommand_missing_naming_witness :
    parseCurlCommand (String.mk (renderCurlNoCookie "https://example.edu".toList
        .short .sq "tok123".toList true)) =
      .error (["Cookie"], curlErrorMsg ["Cookie"]) ∧
    parseCurlCommand "echo hello" =
      .error (["Authorization", "Cookie"],
        curlErrorMsg ["Authorization", "Cookie"]) ∧
    parseCurlCommand "curl https://u -H 'authorization: Bearer t7' -b 'sid=42'" =
      .ok ⟨"Bearer t7", "sid=42"⟩ := by
  refine ⟨?_, ?_, ?_⟩
  · exact parseCurlCommand_missing_naming.1 "https://example.edu".toList
      "tok123".toList .short .sq true (by decide) (by decide) (by decide) (by decide)
  · exact parseCurlCommand_missing_naming.2.1 "echo hello" (by decide) (by decide)
  · exact (parseCurlCommand_missing_naming.2.2
      "curl https://u -H 'authorization: Bearer t7' -b 'sid=42'"
      (by decide) (by decide)).trans rfl

end MyCli
